import Mathlib

/-!
Verification of the diagnosis scoring engine of the HealthCare repository.

The engine lives in two Python files:
  * `src/train.py` — class `HealthcareDiagnosticsSystem`: training-data
    cleaning, symptom frequency counter, category assignment, the
    weighted-mode similarity scorer, the optional classifier path, the
    merge policy of `diagnose`, and symptom suggestions.
  * `app/app.py` — class `HealthcareDiagnosticsApp`: live-query cleaning,
    the simple-mode similarity scorer used by its `diagnose`, demo data,
    and guarded symptom suggestions.

Python strings are modelled at the character-list level (`List Char`),
with ASCII semantics for `str.lower`, `str.strip`, and the regex classes
`\w` / `\s`.  Floating point arithmetic (`np.log`, division) is modelled
over the real numbers.  `list(set(xs))` and `Counter` key order are
modelled as first-occurrence order.  The sklearn `RandomForestClassifier`
(`predict_proba` together with `np.argsort`, `train.py` lines 155–158) is
an external ML library computation and is abstracted as an optional
function from the query token list to class/probability pairs; every line
of repository code around that call is embedded faithfully.
-/

namespace HC

/-! ## Character-level models of the Python string primitives -/

/-- Python whitespace test (used by `str.strip` and the regex class `\s`),
ASCII model. -/
def pyIsSpace (c : Char) : Bool := c.isWhitespace

/-- Python regex word character `\w`, ASCII model: letters, digits and
underscore. -/
def isWordChar (c : Char) : Bool := c.isAlphanum || c == '_'

/-- Python `str.strip`: drop leading and trailing whitespace. -/
def pyStrip (cs : List Char) : List Char :=
  ((cs.dropWhile pyIsSpace).reverse.dropWhile pyIsSpace).reverse

/-- Python `str.lower`, ASCII model. -/
def pyLower (cs : List Char) : List Char := cs.map Char.toLower

/-- Python `re.sub(r'[^\w\s]', '', s)`: delete every character that is
neither a word character nor whitespace. -/
def stripPunct (cs : List Char) : List Char :=
  cs.filter (fun c => isWordChar c || pyIsSpace c)

/-- Python `str.split(',')`.  On the empty string it returns `[""]`,
exactly as Python does. -/
def splitComma : List Char → List (List Char)
  | [] => [[]]
  | c :: cs =>
    if c = ',' then [] :: splitComma cs
    else
      match splitComma cs with
      | [] => [[c]]
      | p :: ps => (c :: p) :: ps

/-- Python `','.join` over a list of strings. -/
def joinComma : List String → String
  | [] => ""
  | [s] => s
  | s :: rest => s ++ "," ++ joinComma rest

/-- Python `' '.join` at the character level. -/
def joinSpace : List (List Char) → List Char
  | [] => []
  | [x] => x
  | x :: xs => x ++ ' ' :: joinSpace xs

/-- Python substring test `pat in text`. -/
def strContainsSub (text pat : String) : Bool :=
  text.data.tails.any (fun t => pat.data.isPrefixOf t)

/-- Python `str.startswith`, at the character level. -/
def pyStartsWith (s pre : String) : Bool := pre.data.isPrefixOf s.data

/-! ## Deterministic models of Python set/dict iteration -/

/-- Model of `list(set(xs))` and of `Counter(xs)` key order: the elements
of `xs` in first-occurrence order, duplicate-free. -/
def firstSeenAux (seen : List String) : List String → List String
  | [] => []
  | x :: xs =>
    if seen.contains x then firstSeenAux seen xs
    else x :: firstSeenAux (x :: seen) xs

/-- First-occurrence deduplication of a list of strings. -/
def firstSeen (l : List String) : List String := firstSeenAux [] l

/-- `list(set(a) & set(b))` — the distinct elements of `a` that also occur
in `b`. -/
def interList (a b : List String) : List String :=
  (firstSeen a).filter (fun s => b.contains s)

/-- `len(set(a) & set(b))`. -/
def interCount (a b : List String) : ℕ := (interList a b).length

/-- `len(set(a) | set(b))`. -/
def unionCount (a b : List String) : ℕ := (firstSeen (a ++ b)).length

/-- Python dict assignment `m[k] = v`: replace the binding in place if the
key is present, otherwise append it (insertion order is preserved, as for
Python dicts). -/
def dictInsert {β : Type} : List (String × β) → String → β → List (String × β)
  | [], k, v => [(k, v)]
  | (k', v') :: m, k, v =>
    if k' = k then (k, v) :: m else (k', v') :: dictInsert m k v

/-! ## Stable descending sort

Python's `list.sort(key=…, reverse=True)` and `sorted(…, reverse=True)`
are stable sorts: elements are ordered by descending key and elements with
equal keys keep their original relative order.  The insertion sort below
has exactly this specification (proved further down), hence is
extensionally the same function. -/

/-- Insert `r` in front of the first element whose key is ≤ the key of
`r`; elements with strictly greater keys are skipped. -/
def insertDesc {α : Type} {β : Type} [LinearOrder β] (key : α → β) (r : α) :
    List α → List α
  | [] => [r]
  | y :: ys =>
    if key y ≤ key r then r :: y :: ys else y :: insertDesc key r ys

/-- Stable sort by descending key. -/
def sortKeyDesc {α : Type} {β : Type} [LinearOrder β] (key : α → β) :
    List α → List α
  | [] => []
  | x :: xs => insertDesc key x (sortKeyDesc key xs)


/-! ## Data model shared by both classes -/

/-- One row of the preprocessed dataframe / demo table: `Name`, cleaned
`Symptoms`, `Treatments` (after `fillna`, so always present). -/
structure Row where
  name : String
  symptoms : List String
  treatments : String
deriving DecidableEq

/-- The piece pipeline shared by both cleaners (`train.py` lines 35–37,
`app.py` lines 431–433): split on commas, strip and lowercase each piece,
delete punctuation, keep pieces that are nonempty with length > 2. -/
def cleanPieces (text : String) : List String :=
  let pieces := (splitComma text.data).map
    (fun p => String.mk (pyLower (pyStrip p)))
  let pieces := pieces.map (fun s => String.mk (stripPunct s.data))
  pieces.filter (fun s => decide (s ≠ "") && decide (2 < s.length))

/-- `prefix.lower().strip()`, the processed suggestion search text
(`train.py` line 241, `app.py` line 438). -/
def procPre (p : String) : String := String.mk (pyStrip (pyLower p.data))

namespace Train

/-- The stop-word set of `clean_symptoms` (`train.py` line 39). -/
def stop_words : List String :=
  ["and", "or", "the", "of", "in", "to", "with", "without", "due",
   "such", "as"]

/-- `clean_symptoms` (`train.py` lines 31–42): the training-data cleaning
path, including stop-word removal; `pd.isna` input is modelled as `none`,
and `list(set(…))` as first-seen deduplication. -/
def clean_symptoms : Option String → List String
  | none => []
  | some text =>
    firstSeen ((cleanPieces text).filter (fun s => !(stop_words.contains s)))

/-- System state of `HealthcareDiagnosticsSystem`: the preprocessed
dataframe, and an abstraction of the trained sklearn classifier.
`classifierOut` stands for the class/probability pairs computed by
`predict_proba` paired with `classes_` (`train.py` line 155, an external
ML library call); it is `none` when no classifier was trained.  All
repository code around that call is embedded below. -/
structure System where
  df : List Row
  classifierOut : Option (List String → List (String × ℝ))

/-- `calculate_symptom_frequency` (`train.py` lines 47–52): a `Counter`
over every symptom occurrence, modelled as an association list in
first-seen key order. -/
def symptom_freq (df : List Row) : List (String × ℕ) :=
  let xs := df.flatMap Row.symptoms
  (firstSeen xs).map (fun s => (s, xs.count s))

/-- `self.symptom_freq.get(symptom, 1)` (`train.py` line 190): the counter
value, defaulting to 1 for unseen symptoms. -/
def freqGet (df : List Row) (s : String) : ℕ :=
  ((symptom_freq df).lookup s).getD 1

/-- The ordered category → keyword table of `categorize_diseases`
(`train.py` lines 79–89). -/
def categoriesTable : List (String × List String) :=
  [("Infectious", ["fever", "infection", "viral", "bacterial", "fungal"]),
   ("Cardiovascular",
    ["chest pain", "heart", "blood pressure", "palpitations"]),
   ("Neurological",
    ["headache", "seizure", "numbness", "tingling", "confusion"]),
   ("Gastrointestinal",
    ["abdominal pain", "nausea", "vomiting", "diarrhea"]),
   ("Respiratory",
    ["cough", "shortness of breath", "wheezing", "chest congestion"]),
   ("Musculoskeletal",
    ["joint pain", "muscle pain", "stiffness", "swelling"]),
   ("Dermatological", ["rash", "itching", "skin", "redness"]),
   ("Endocrine", ["fatigue", "weight", "thirst", "urination"]),
   ("Other", [])]

/-- Category assignment for one row (`train.py` lines 92–99): the first
category whose keyword list has a substring match against the joined,
lowercased symptom text; `Other` when none matches. -/
def assignCategory (symptoms : List String) : String :=
  let text := String.mk (pyLower (joinSpace (symptoms.map String.data)))
  match categoriesTable.find?
      (fun ck => ck.2.any (fun kw => strContainsSub text kw)) with
  | some ck => ck.1
  | none => "Other"

/-- `categorize_diseases` (`train.py` lines 91–103): a dict keyed by
disease name; a later row with the same name overwrites an earlier one. -/
def disease_categories (df : List Row) : List (String × String) :=
  df.foldl
    (fun m row => dictInsert m row.name (assignCategory row.symptoms)) []

/-- `self.disease_categories.get(row['Name'], 'Other')` (line 207). -/
def categoryGet (df : List Row) (n : String) : String :=
  ((disease_categories df).lookup n).getD ("Other")

/-- One result dict of `train.py`.  `predict_with_classifier` builds dicts
with keys `disease, similarity, method='classification', treatments,
symptoms` (lines 164–170); `similarity_search` builds dicts with keys
`disease, similarity, matching_symptoms, all_symptoms, treatments,
category, match_count, method='similarity'` (lines 201–210).  The two
shapes are a tagged variant; the tag is the `method` value. -/
inductive TResult where
  | cls (disease : String) (similarity : ℝ) (treatments : String)
      (symptoms : List String)
  | sim (disease : String) (similarity : ℝ)
      (matching_symptoms : List String) (all_symptoms : List String)
      (treatments : String) (category : String) (match_count : ℕ)

def TResult.disease : TResult → String
  | .cls d _ _ _ => d
  | .sim d _ _ _ _ _ _ => d

def TResult.similarity : TResult → ℝ
  | .cls _ p _ _ => p
  | .sim _ p _ _ _ _ _ => p

/-- The `method` tag of a result dict. -/
def TResult.method : TResult → String
  | .cls _ _ _ _ => "classification"
  | .sim _ _ _ _ _ _ _ => "similarity"

/-- The `matching_symptoms` field; `[]` on classifier results, which do
not carry that key. -/
def TResult.matching_symptoms : TResult → List String
  | .cls _ _ _ _ => []
  | .sim _ _ m _ _ _ _ => m

/-- The `all_symptoms` field; `[]` on classifier results, which do not
carry that key. -/
def TResult.all_symptoms : TResult → List String
  | .cls _ _ _ _ => []
  | .sim _ _ _ a _ _ _ => a

/-- The `match_count` field; `0` on classifier results, which do not
carry that key. -/
def TResult.match_count : TResult → ℕ
  | .cls _ _ _ _ => 0
  | .sim _ _ _ _ _ _ c => c

/-- The per-row weighted-mode score of `similarity_search` (`train.py`
lines 184–198): Jaccard, specificity weighting over the counter,
coverage over the input token list, combined as
`jaccard*0.4 + coverage*0.3 + weights*0.3`. -/
noncomputable def scoreRow (freq : String → ℕ) (input D : List String) : ℝ :=
  let inter := interCount input D
  let uni := unionCount input D
  let jaccard_sim : ℝ := if 0 < uni then (inter : ℝ) / (uni : ℝ) else 0
  let symptom_weights : ℝ :=
    ((D.filter (fun s => input.contains s)).map
      (fun s => 1 / Real.log ((freq s : ℝ) + 1))).sum
  let coverage : ℝ :=
    if input = [] then 0 else (inter : ℝ) / (input.length : ℝ)
  jaccard_sim * 0.4 + coverage * 0.3 + symptom_weights * 0.3

/-- The processed query of `similarity_search` (line 176):
`[s.strip().lower() for s in input_symptoms]`. -/
def procQuery (input : List String) : List String :=
  input.map (fun s => String.mk (pyLower (pyStrip s.data)))

/-- The result record built for one dataframe row (`train.py` lines
179–210); `none` when the row has no symptoms or its score does not
exceed the `0.1` threshold. -/
noncomputable def rowResult (sys : System) (input : List String)
    (row : Row) : Option TResult :=
  if row.symptoms = [] then none
  else if 0.1 < scoreRow (freqGet sys.df) input row.symptoms then
    some (.sim row.name (scoreRow (freqGet sys.df) input row.symptoms)
      (interList input row.symptoms) row.symptoms row.treatments
      (categoryGet sys.df row.name) (interCount input row.symptoms))
  else none

/-- The unsorted result list of `similarity_search`, in dataframe
iteration order. -/
noncomputable def simRaw (sys : System) (input0 : List String) :
    List TResult :=
  sys.df.filterMap (rowResult sys (procQuery input0))

/-- `similarity_search` (`train.py` lines 174–213): score every row, keep
scores above `0.1`, stable-sort descending by score, return the first
`top_n`. -/
noncomputable def similarity_search (sys : System) (input : List String)
    (top_n : ℕ) : List TResult :=
  (sortKeyDesc TResult.similarity (simRaw sys input)).take top_n

/-- `predict_with_classifier` (`train.py` lines 146–172): rank the
classifier's class probabilities descending, take the top 3, keep those
above `0.1`, and attach treatments and symptoms from the first dataframe
row carrying the predicted name (in Python a predicted class always names
a dataframe row; the impossible not-found case is modelled as a skip). -/
noncomputable def predict_with_classifier (sys : System)
    (input : List String) : Option (List TResult) :=
  match sys.classifierOut with
  | none => none
  | some f =>
    some (((sortKeyDesc Prod.snd (f input)).take 3).filterMap
      (fun (dp : String × ℝ) =>
      if 0.1 < dp.2 then
        match sys.df.find? (fun row => row.name == dp.1) with
        | some row => some (.cls dp.1 dp.2 row.treatments row.symptoms)
        | none => none
      else none))

/-- One step of the similarity loop of `diagnose` (lines 230–233): a
similarity result replaces the stored result of the same disease only
when its score is strictly greater. -/
noncomputable def mergeStep (m : List (String × TResult)) (r : TResult) :
    List (String × TResult) :=
  match m.lookup r.disease with
  | none => dictInsert m r.disease r
  | some r0 =>
    if r0.similarity < r.similarity then dictInsert m r.disease r else m

/-- The merged dict `all_results` of `diagnose` (lines 224–233):
classifier results are inserted first, then the similarity results are
folded through `mergeStep`. -/
noncomputable def mergeMap (clsR simR : List TResult) :
    List (String × TResult) :=
  simR.foldl mergeStep
    (clsR.foldl (fun m r => dictInsert m r.disease r) [])

/-- `diagnose` (`train.py` lines 215–237): merge the classifier results
with `2*top_n` similarity results, sort the dict values by descending
score, truncate to `top_n`. -/
noncomputable def diagnose (sys : System) (input : List String)
    (top_n : ℕ) : List TResult :=
  let clsR := (predict_with_classifier sys input).getD []
  let simR := similarity_search sys input (top_n * 2)
  (sortKeyDesc TResult.similarity ((mergeMap clsR simR).map Prod.snd)).take
    top_n

/-- The matched `(symptom, freq)` pairs of `get_symptom_suggestions`
(`train.py` lines 243–248), sorted by descending frequency (stable, so
ties stay in counter insertion order). -/
def suggPairs (df : List Row) (p : String) : List (String × ℕ) :=
  sortKeyDesc Prod.snd
    ((symptom_freq df).filter (fun sf => pyStartsWith sf.1 (procPre p)))

/-- `get_symptom_suggestions` (`train.py` lines 239–249).  Note that no
minimum length is required of the search text. -/
def get_symptom_suggestions (df : List Row) (p : String)
    (max_suggestions : ℕ) : List String :=
  ((suggPairs df p).take max_suggestions).map Prod.fst

end Train

namespace App

/-- One result dict of the app's `diagnose` (`app.py` lines 479–486). -/
structure Result where
  disease : String
  similarity : ℝ
  matching_symptoms : List String
  all_symptoms : List String
  treatments : String
  match_count : ℕ

/-- System state of `HealthcareDiagnosticsApp` after `load_demo_data`:
the disease table and the symptom frequency dict. -/
structure System where
  disease_data : List Row
  symptom_freq : List (String × ℕ)

/-- `clean_input_symptoms` (`app.py` lines 426–434): the live-query
cleaning path — same pipeline as the training cleaner but with **no**
stop-word removal; empty or non-string input yields `[]`. -/
def clean_input_symptoms : Option String → List String
  | none => []
  | some text => if text = "" then [] else firstSeen (cleanPieces text)

/-- `self.symptom_freq.get(symptom, d)` over the frequency dict. -/
def freqGetD (fi : List (String × ℕ)) (s : String) (d : ℕ) : ℕ :=
  (fi.lookup s).getD d

/-- The per-row simple-mode score of the app's `diagnose` (`app.py` lines
465–476): `jaccard * (1 + specificity_weights)`. -/
noncomputable def scoreRow (fi : List (String × ℕ)) (input D : List String) : ℝ :=
  let inter := interCount input D
  let uni := unionCount input D
  let jaccard_sim : ℝ := if 0 < uni then (inter : ℝ) / (uni : ℝ) else 0
  let symptom_weights : ℝ :=
    ((D.filter (fun s => input.contains s)).map
      (fun s => 1 / Real.log ((freqGetD fi s 1 : ℝ) + 1))).sum
  jaccard_sim * (1 + symptom_weights)

/-- The result record built for one disease entry (`app.py` lines
460–486); `none` when the entry has no symptoms or its score does not
exceed the `0.1` threshold. -/
noncomputable def rowResult (fi : List (String × ℕ)) (input : List String)
    (d : Row) : Option Result :=
  if d.symptoms = [] then none
  else if 0.1 < scoreRow fi input d.symptoms then
    some ⟨d.name, scoreRow fi input d.symptoms, interList input d.symptoms,
      d.symptoms, d.treatments, interCount input d.symptoms⟩
  else none

/-- The unsorted result list of the app's `diagnose`, in catalog
iteration order. -/
noncomputable def diagnoseRaw (sys : System) (input : List String) :
    List Result :=
  sys.disease_data.filterMap (rowResult sys.symptom_freq input)

/-- `diagnose` (`app.py` lines 450–489): clean the raw text, return `[]`
on an empty token set, otherwise score every catalog entry, keep scores
above `0.1`, stable-sort descending, truncate to `top_n`. -/
noncomputable def diagnose (sys : System) (text : Option String)
    (top_n : ℕ) : List Result :=
  let input := clean_input_symptoms text
  if input = [] then []
  else (sortKeyDesc Result.similarity (diagnoseRaw sys input)).take top_n

/-- The matched `(symptom, freq)` pairs of the app's
`get_symptom_suggestions` (`app.py` lines 442–447): iterate the dict
keys, pair each matching key with `.get(symptom, 0)`, sort by descending
frequency (stable). -/
def suggPairs (fi : List (String × ℕ)) (p : String) : List (String × ℕ) :=
  sortKeyDesc Prod.snd
    (((fi.map Prod.fst).filter (fun s => pyStartsWith s (procPre p))).map
      (fun s => (s, freqGetD fi s 0)))

/-- `get_symptom_suggestions` (`app.py` lines 436–448): guarded — an
empty or single-character processed search text, or an empty frequency
dict, yields `[]`. -/
def get_symptom_suggestions (sys : System) (p : String)
    (max_suggestions : ℕ) : List String :=
  if procPre p = "" ∨ (procPre p).length < 2 ∨ sys.symptom_freq = [] then []
  else
    ((suggPairs sys.symptom_freq p).take max_suggestions).map Prod.fst

/-- Demo catalog entry 1 of `load_demo_data` (`app.py` lines 377–381). -/
def rowCC : Row :=
  ⟨"Common Cold",
   ["cough", "runny nose", "sneezing", "sore throat", "fatigue",
    "mild fever"],
   "Rest, hydration, over-the-counter cold medication, vitamin C"⟩

/-- Demo catalog entry 2 (`app.py` lines 382–386). -/
def rowInfluenza : Row :=
  ⟨"Influenza",
   ["fever", "body aches", "fatigue", "cough", "headache", "chills",
    "sore throat"],
   "Rest, fluids, antiviral medication if early, pain relievers"⟩

/-- Demo catalog entry 3 (`app.py` lines 387–391). -/
def rowMigraine : Row :=
  ⟨"Migraine",
   ["headache", "nausea", "light sensitivity", "vision changes",
    "dizziness"],
   "Rest in dark room, pain medication, migraine-specific drugs, hydration"⟩

/-- Demo catalog entry 4 (`app.py` lines 392–396). -/
def rowFoodPoisoning : Row :=
  ⟨"Food Poisoning",
   ["nausea", "vomiting", "diarrhea", "stomach cramps", "fever",
    "loss of appetite"],
   "Hydration, rest, bland diet, avoid dairy and fatty foods, electrolyte solutions"⟩

/-- Demo catalog entry 5 (`app.py` lines 397–401). -/
def rowAllergic : Row :=
  ⟨"Allergic Rhinitis",
   ["sneezing", "runny nose", "itchy eyes", "nasal congestion",
    "postnasal drip"],
   "Antihistamines, nasal sprays, allergen avoidance, decongestants"⟩

/-- Demo catalog entry 6 (`app.py` lines 402–406). -/
def rowBronchitis : Row :=
  ⟨"Bronchitis",
   ["persistent cough", "chest congestion", "fatigue",
    "shortness of breath", "fever"],
   "Rest, hydration, cough medicine, inhalers if needed, avoid irritants"⟩

/-- The demo disease table of `load_demo_data` (`app.py` lines 375–408). -/
def demoData : List Row :=
  [rowCC, rowInfluenza, rowMigraine, rowFoodPoisoning, rowAllergic,
   rowBronchitis]

/-- The demo symptom frequency dict of `load_demo_data` (`app.py` lines
411–418). -/
def demoFreq : List (String × ℕ) :=
  [("headache", 180), ("fever", 160), ("cough", 220), ("fatigue", 250),
   ("nausea", 120), ("runny nose", 190), ("sneezing", 160),
   ("sore throat", 140), ("body aches", 110), ("chills", 90),
   ("vomiting", 80), ("diarrhea", 70), ("stomach cramps", 60),
   ("light sensitivity", 40), ("vision changes", 35),
   ("nasal congestion", 130), ("itchy eyes", 55), ("chest congestion", 45),
   ("shortness of breath", 50), ("dizziness", 65), ("loss of appetite", 75)]

/-- The app system right after `load_demo_data`. -/
def demo : System := ⟨demoData, demoFreq⟩

end App

/-! ## Spec-side scoring formulas

The following definitions transcribe the *specification's* wording of the
two scoring modes (spec §4.4 / claim C3), over finite sets of tokens.
They are deliberately written from the spec text, to be compared with the
code-side `Train.scoreRow` / `App.scoreRow` above. -/

/-- Spec wording: `jaccard = |I∩D| / |I∪D|` (0 when the union is empty). -/
noncomputable def specJaccard (I D : Finset String) : ℝ :=
  if I ∪ D = ∅ then 0 else ((I ∩ D).card : ℝ) / ((I ∪ D).card : ℝ)

/-- Spec wording: `coverage = |I∩D| / |I|` (0 when `I` is empty). -/
noncomputable def specCoverage (I D : Finset String) : ℝ :=
  if I = ∅ then 0 else ((I ∩ D).card : ℝ) / (I.card : ℝ)

/-- Spec wording: `specificity_weight = Σ over s in D∩I of
1/log(frequency(s)+1)`, `frequency` defaulting to 1 for absent tokens
(the default is part of the `freq` function passed in). -/
noncomputable def specSpecWeight (freq : String → ℕ) (I D : Finset String) : ℝ :=
  ∑ s ∈ D ∩ I, 1 / Real.log ((freq s : ℝ) + 1)

/-- Spec wording, simple mode: `score = jaccard * (1 + specificity_weight)`. -/
noncomputable def specSimpleScore (freq : String → ℕ) (I D : Finset String) : ℝ :=
  specJaccard I D * (1 + specSpecWeight freq I D)

/-- Spec wording, weighted mode:
`score = 0.4*jaccard + 0.3*coverage + 0.3*specificity_weight`. -/
noncomputable def specWeightedScore (freq : String → ℕ) (I D : Finset String) : ℝ :=
  0.4 * specJaccard I D + 0.3 * specCoverage I D +
    0.3 * specSpecWeight freq I D

/-- Claim C9's notion of an already-normalized token: lowercase, trimmed,
only word/space characters, length > 2. -/
def normalTok (s : String) : Bool :=
  decide (pyStrip s.data = s.data) && decide (pyLower s.data = s.data) &&
    s.data.all (fun c => isWordChar c || pyIsSpace c) &&
    decide (2 < s.length)

/-! ## Concrete instances used by witnesses and counterexamples -/

/-- A one-row dataframe. -/
def witRow : Row := ⟨("A"), [("abc")], ("t")⟩

/-- Tiny training system whose classifier abstraction always answers
`[("A", 1/2)]`. -/
noncomputable def witSys : Train.System :=
  ⟨[witRow], some (fun _ => [(("A"), (1/2 : ℝ))])⟩

/-- The same dataframe with no trained classifier. -/
noncomputable def witSysNone : Train.System := ⟨[witRow], none⟩

section SortLemmas

variable {α : Type} {β : Type} [LinearOrder β] (key : α → β)

theorem mem_insertDesc {r a : α} {l : List α} :
    a ∈ insertDesc key r l ↔ a = r ∨ a ∈ l := by
  induction l with
  | nil => simp [insertDesc]
  | cons y ys ih =>
    by_cases h : key y ≤ key r
    · simp [insertDesc, h]
    · simp [insertDesc, h, ih]
      tauto

theorem mem_sortKeyDesc {a : α} {l : List α} :
    a ∈ sortKeyDesc key l ↔ a ∈ l := by
  induction l with
  | nil => simp [sortKeyDesc]
  | cons x xs ih => simp [sortKeyDesc, mem_insertDesc, ih]

theorem perm_insertDesc (r : α) (l : List α) :
    (insertDesc key r l).Perm (r :: l) := by
  induction l with
  | nil => simp [insertDesc]
  | cons y ys ih =>
    by_cases h : key y ≤ key r
    · simp only [insertDesc, if_pos h]
      exact List.Perm.refl _
    · simp only [insertDesc, if_neg h]
      exact ((ih.cons y).trans (List.Perm.swap r y ys))

theorem perm_sortKeyDesc (l : List α) : (sortKeyDesc key l).Perm l := by
  induction l with
  | nil => simp [sortKeyDesc]
  | cons x xs ih =>
    exact (perm_insertDesc key x (sortKeyDesc key xs)).trans (ih.cons x)

theorem pairwise_insertDesc {r : α} {l : List α}
    (h : l.Pairwise (fun a b => key b ≤ key a)) :
    (insertDesc key r l).Pairwise (fun a b => key b ≤ key a) := by
  induction l with
  | nil => simp [insertDesc]
  | cons y ys ih =>
    rcases List.pairwise_cons.mp h with ⟨hy, hys⟩
    by_cases hle : key y ≤ key r
    · simp only [insertDesc, if_pos hle]
      refine List.pairwise_cons.mpr ⟨?_, h⟩
      intro b hb
      rcases List.mem_cons.mp hb with rfl | hb
      · exact hle
      · exact le_trans (hy b hb) hle
    · simp only [insertDesc, if_neg hle]
      refine List.pairwise_cons.mpr ⟨?_, ih hys⟩
      intro b hb
      rcases (mem_insertDesc key).mp hb with rfl | hb
      · exact le_of_not_le hle
      · exact hy b hb

theorem pairwise_sortKeyDesc (l : List α) :
    (sortKeyDesc key l).Pairwise (fun a b => key b ≤ key a) := by
  induction l with
  | nil => simp [sortKeyDesc]
  | cons x xs ih => exact pairwise_insertDesc key ih

/-- Stability of the insertion step, phrased through filtering on one key
value: inserting `r` prepends it to the same-key elements already present
and leaves every other key class untouched. -/
theorem filter_insertDesc [DecidableEq β] (c : β) (r : α) (l : List α) :
    (insertDesc key r l).filter (fun a => key a = c) =
      if key r = c then r :: l.filter (fun a => key a = c)
      else l.filter (fun a => key a = c) := by
  induction l with
  | nil => by_cases h : key r = c <;> simp [insertDesc, h]
  | cons y ys ih =>
    by_cases hle : key y ≤ key r
    · simp only [insertDesc, if_pos hle]
      by_cases h : key r = c <;> simp [h]
    · have hry : key r < key y := lt_of_not_le hle
      simp only [insertDesc, if_neg hle]
      by_cases h : key r = c
      · have hy : ¬ (key y = c) := by
          intro hyc; exact absurd (hyc.trans h.symm) (ne_of_gt hry)
        simp [h, hy, ih]
      · by_cases hy : key y = c <;> simp [h, hy, ih]

/-- Stability of the sort: for every key value `c`, the subsequence of
elements with key `c` is exactly the same (same elements, same order) in
the sorted list as in the input list. -/
theorem filter_sortKeyDesc [DecidableEq β] (c : β) (l : List α) :
    (sortKeyDesc key l).filter (fun a => key a = c) =
      l.filter (fun a => key a = c) := by
  induction l with
  | nil => simp [sortKeyDesc]
  | cons x xs ih =>
    by_cases h : key x = c <;>
      simp [sortKeyDesc, filter_insertDesc, h, ih]

/-- The head of the stable descending sort is the strictly greatest
element, whenever one exists. -/
theorem head_sortKeyDesc_of_max {x : α} {l : List α} (hx : x ∈ l)
    (hmax : ∀ y ∈ l, y ≠ x → key y < key x) :
    (sortKeyDesc key l).head? = some x := by
  rcases hs : sortKeyDesc key l with _ | ⟨h0, rest⟩
  · exfalso
    have : x ∈ sortKeyDesc key l := (mem_sortKeyDesc key).mpr hx
    rw [hs] at this
    exact absurd this (List.not_mem_nil x)
  · have hmem : x ∈ sortKeyDesc key l := (mem_sortKeyDesc key).mpr hx
    rw [hs] at hmem
    rcases List.mem_cons.mp hmem with rfl | hmem
    · rfl
    · have hpw := pairwise_sortKeyDesc key l
      rw [hs] at hpw
      rcases List.pairwise_cons.mp hpw with ⟨hdom, _⟩
      have hle : key x ≤ key h0 := hdom x hmem
      have h0l : h0 ∈ l := by
        have : h0 ∈ sortKeyDesc key l := by rw [hs]; exact List.mem_cons_self _ _
        exact (mem_sortKeyDesc key).mp this
      by_cases he : h0 = x
      · rw [he]; rfl
      · exact absurd hle (not_le_of_lt (hmax h0 h0l he))

end SortLemmas

/-! ## Lemmas about the set/dict models -/

theorem mem_firstSeenAux {a : String} {seen l : List String} :
    a ∈ firstSeenAux seen l ↔ a ∈ l ∧ a ∉ seen := by
  induction l generalizing seen with
  | nil => simp [firstSeenAux]
  | cons x xs ih =>
    by_cases hx : x ∈ seen
    · rw [firstSeenAux, if_pos (by simpa [List.elem_eq_mem] using hx)]
      simp only [ih, List.mem_cons]
      constructor
      · rintro ⟨h1, h2⟩; exact ⟨Or.inr h1, h2⟩
      · rintro ⟨h1 | h1, h2⟩
        · subst h1; exact absurd hx h2
        · exact ⟨h1, h2⟩
    · rw [firstSeenAux, if_neg (by simpa [List.elem_eq_mem] using hx)]
      simp only [List.mem_cons, ih]
      constructor
      · rintro (rfl | ⟨h1, h2⟩)
        · exact ⟨Or.inl rfl, hx⟩
        · exact ⟨Or.inr h1, fun hc => h2 (Or.inr hc)⟩
      · rintro ⟨rfl | h1, h2⟩
        · exact Or.inl rfl
        · by_cases hax : a = x
          · exact Or.inl hax
          · exact Or.inr ⟨h1, fun hc => hc.elim hax h2⟩

theorem mem_firstSeen {a : String} {l : List String} :
    a ∈ firstSeen l ↔ a ∈ l := by
  simp [firstSeen, mem_firstSeenAux]

theorem nodup_firstSeenAux {seen l : List String} :
    (firstSeenAux seen l).Nodup := by
  induction l generalizing seen with
  | nil => simp [firstSeenAux]
  | cons x xs ih =>
    by_cases hx : x ∈ seen
    · rw [firstSeenAux, if_pos (by simpa [List.elem_eq_mem] using hx)]
      exact ih
    · rw [firstSeenAux, if_neg (by simpa [List.elem_eq_mem] using hx)]
      refine List.nodup_cons.mpr ⟨?_, ih⟩
      intro hc
      exact absurd (List.mem_cons_self x seen) (mem_firstSeenAux.mp hc).2

theorem nodup_firstSeen {l : List String} : (firstSeen l).Nodup :=
  nodup_firstSeenAux

theorem toFinset_firstSeen (l : List String) :
    (firstSeen l).toFinset = l.toFinset := by
  ext a; simp [mem_firstSeen]

theorem firstSeenAux_eq_self {seen l : List String} (hl : l.Nodup)
    (hs : ∀ x ∈ l, x ∉ seen) : firstSeenAux seen l = l := by
  induction l generalizing seen with
  | nil => simp [firstSeenAux]
  | cons x xs ih =>
    rcases List.nodup_cons.mp hl with ⟨hx, hxs⟩
    have hns : x ∉ seen := hs x (List.mem_cons_self x xs)
    rw [firstSeenAux, if_neg (by simpa [List.elem_eq_mem] using hns)]
    congr 1
    refine ih hxs ?_
    intro y hy
    simp only [List.mem_cons]
    rintro (rfl | hsy)
    · exact hx hy
    · exact hs y (List.mem_cons_of_mem _ hy) hsy

theorem firstSeen_eq_self {l : List String} (hl : l.Nodup) :
    firstSeen l = l :=
  firstSeenAux_eq_self hl (by simp)

theorem nodup_interList (a b : List String) : (interList a b).Nodup :=
  List.Nodup.filter _ nodup_firstSeen

theorem mem_interList {s : String} {a b : List String} :
    s ∈ interList a b ↔ s ∈ a ∧ s ∈ b := by
  simp [interList, List.mem_filter, mem_firstSeen, and_comm]

theorem toFinset_interList (a b : List String) :
    (interList a b).toFinset = a.toFinset ∩ b.toFinset := by
  ext s; simp [mem_interList]

theorem interCount_eq (a b : List String) :
    interCount a b = (a.toFinset ∩ b.toFinset).card := by
  rw [← toFinset_interList, List.toFinset_card_of_nodup (nodup_interList a b)]
  rfl

theorem unionCount_eq (a b : List String) :
    unionCount a b = (a.toFinset ∪ b.toFinset).card := by
  have h : (firstSeen (a ++ b)).toFinset = a.toFinset ∪ b.toFinset := by
    rw [toFinset_firstSeen, List.toFinset_append]
  rw [unionCount, ← h, List.toFinset_card_of_nodup nodup_firstSeen]

section DictLemmas

variable {β : Type}

theorem lookup_dictInsert_self (m : List (String × β)) (k : String) (v : β) :
    (dictInsert m k v).lookup k = some v := by
  induction m with
  | nil => simp [dictInsert, List.lookup]
  | cons p m ih =>
    by_cases h : p.1 = k
    · simp [dictInsert, h, List.lookup]
    · have hb : (k == p.1) = false := beq_false_of_ne (Ne.symm h)
      simpa [dictInsert, h, List.lookup, hb] using ih

theorem lookup_dictInsert_ne (m : List (String × β)) {k k' : String}
    (v : β) (h : k' ≠ k) :
    (dictInsert m k v).lookup k' = m.lookup k' := by
  have hb : (k' == k) = false := beq_false_of_ne h
  induction m with
  | nil => simp [dictInsert, List.lookup, hb]
  | cons p m ih =>
    by_cases hp : p.1 = k
    · subst hp
      simp [dictInsert, List.lookup, hb]
    · by_cases hk' : k' = p.1
      · subst hk'
        simp [dictInsert, hp, List.lookup]
      · have hb' : (k' == p.1) = false := beq_false_of_ne hk'
        simp [dictInsert, hp, List.lookup, hb', ih]

theorem mem_dictInsert {p : String × β} {m : List (String × β)}
    {k : String} {v : β} (h : p ∈ dictInsert m k v) :
    p ∈ m ∨ p = (k, v) := by
  induction m with
  | nil => simpa [dictInsert] using h
  | cons q m ih =>
    by_cases hq : q.1 = k
    · simp only [dictInsert, if_pos hq, List.mem_cons] at h
      rcases h with rfl | h
      · exact Or.inr rfl
      · exact Or.inl (List.mem_cons_of_mem _ h)
    · simp only [dictInsert, if_neg hq, List.mem_cons] at h
      rcases h with rfl | h
      · exact Or.inl (List.mem_cons_self _ _)
      · rcases ih h with h | h
        · exact Or.inl (List.mem_cons_of_mem _ h)
        · exact Or.inr h

end DictLemmas

/-! ## Bridging the code-side scores to the spec formulas -/

theorem jaccard_bridge (input D : List String) :
    (if 0 < unionCount input D
      then ((interCount input D : ℝ) / (unionCount input D : ℝ)) else 0) =
      specJaccard input.toFinset D.toFinset := by
  rw [specJaccard, interCount_eq, unionCount_eq]
  by_cases h : input.toFinset ∪ D.toFinset = ∅
  · simp [h]
  · have hc : 0 < (input.toFinset ∪ D.toFinset).card :=
      Finset.card_pos.mpr (Finset.nonempty_iff_ne_empty.mpr h)
    simp [h, hc]

theorem weight_bridge (w : String → ℝ) (input D : List String)
    (hD : D.Nodup) :
    ((D.filter (fun s => input.contains s)).map w).sum =
      ∑ s ∈ D.toFinset ∩ input.toFinset, w s := by
  have hf : (D.filter (fun s => input.contains s)).Nodup := hD.filter _
  have ht : (D.filter (fun s => input.contains s)).toFinset =
      D.toFinset ∩ input.toFinset := by
    ext s
    simp [List.mem_filter, List.elem_iff]
  rw [← List.sum_toFinset _ hf, ht]

theorem coverage_bridge (input D : List String) (hI : input.Nodup) :
    (if input = [] then 0
      else ((interCount input D : ℝ) / (input.length : ℝ))) =
      specCoverage input.toFinset D.toFinset := by
  rw [specCoverage, interCount_eq]
  by_cases h : input = []
  · simp [h]
  · have hne : ¬ input.toFinset = ∅ := by
      rw [List.toFinset_eq_empty_iff]; exact h
    rw [if_neg h, if_neg hne, List.toFinset_card_of_nodup hI]

/-- Helper: the weighted-mode per-row score of `train.py` equals the
spec's weighted formula on the corresponding token sets. -/
theorem train_scoreRow_spec (freq : String → ℕ) (input D : List String)
    (hI : input.Nodup) (hD : D.Nodup) :
    Train.scoreRow freq input D =
      specWeightedScore freq input.toFinset D.toFinset := by
  rw [Train.scoreRow, specWeightedScore, specSpecWeight,
    ← jaccard_bridge input D, ← coverage_bridge input D hI,
    ← weight_bridge (fun s => 1 / Real.log ((freq s : ℝ) + 1)) input D hD]
  ring

/-- Helper: the simple-mode per-row score of `app.py` equals the spec's
simple formula on the corresponding token sets. -/
theorem app_scoreRow_spec (fi : List (String × ℕ)) (input D : List String)
    (_hI : input.Nodup) (hD : D.Nodup) :
    App.scoreRow fi input D =
      specSimpleScore (fun s => App.freqGetD fi s 1)
        input.toFinset D.toFinset := by
  rw [App.scoreRow, specSimpleScore, specSpecWeight,
    ← jaccard_bridge input D,
    ← weight_bridge
      (fun s => 1 / Real.log ((App.freqGetD fi s 1 : ℝ) + 1)) input D hD]

/-- Helper: inversion of membership in the unsorted `train.py` similarity
result list. -/
theorem mem_simRaw {sys : Train.System} {input : List String}
    {r : Train.TResult} (hr : r ∈ Train.simRaw sys input) :
    ∃ row ∈ sys.df, row.symptoms ≠ [] ∧
      0.1 < Train.scoreRow (Train.freqGet sys.df) (Train.procQuery input)
        row.symptoms ∧
      r = Train.TResult.sim row.name
        (Train.scoreRow (Train.freqGet sys.df) (Train.procQuery input)
          row.symptoms)
        (interList (Train.procQuery input) row.symptoms) row.symptoms
        row.treatments (Train.categoryGet sys.df row.name)
        (interCount (Train.procQuery input) row.symptoms) := by
  rw [Train.simRaw] at hr
  rcases List.mem_filterMap.mp hr with ⟨row, hrow, heq⟩
  rw [Train.rowResult] at heq
  by_cases h1 : row.symptoms = []
  · rw [if_pos h1] at heq; cases heq
  · rw [if_neg h1] at heq
    by_cases h2 : (0.1:ℝ) < Train.scoreRow (Train.freqGet sys.df)
        (Train.procQuery input) row.symptoms
    · rw [if_pos h2] at heq
      exact ⟨row, hrow, h1, h2, (Option.some_injective _ heq).symm⟩
    · rw [if_neg h2] at heq; cases heq

/-- Helper: inversion of membership in the unsorted `app.py` result
list. -/
theorem mem_diagnoseRaw {sys : App.System} {input : List String}
    {r : App.Result} (hr : r ∈ App.diagnoseRaw sys input) :
    ∃ d ∈ sys.disease_data, d.symptoms ≠ [] ∧
      0.1 < App.scoreRow sys.symptom_freq input d.symptoms ∧
      r = ⟨d.name, App.scoreRow sys.symptom_freq input d.symptoms,
        interList input d.symptoms, d.symptoms, d.treatments,
        interCount input d.symptoms⟩ := by
  rw [App.diagnoseRaw] at hr
  rcases List.mem_filterMap.mp hr with ⟨d, hd, heq⟩
  rw [App.rowResult] at heq
  by_cases h1 : d.symptoms = []
  · rw [if_pos h1] at heq; cases heq
  · rw [if_neg h1] at heq
    by_cases h2 : (0.1:ℝ) < App.scoreRow sys.symptom_freq input d.symptoms
    · rw [if_pos h2] at heq
      exact ⟨d, hd, h1, h2, (Option.some_injective _ heq).symm⟩
    · rw [if_neg h2] at heq; cases heq

/-! ## Claim C3 -/

/-- C3: for every input token set `I` and every catalog entry with
symptom set `D`, the similarity score equals the configured mode's
formula — simple mode (the app's scorer): `jaccard*(1+specificity)`;
weighted mode (the training system's scorer):
`0.4*jaccard + 0.3*coverage + 0.3*specificity` — where jaccard, coverage
and the specificity weight are as the spec words them, with frequency
defaulting to 1 for tokens absent from the frequency index.  Stated both
per row and for every produced result. -/
theorem c3_score_formulas :
    (∀ (freq : String → ℕ) (input D : List String),
        input.Nodup → D.Nodup →
        Train.scoreRow freq input D =
          specWeightedScore freq input.toFinset D.toFinset)
    ∧ (∀ (fi : List (String × ℕ)) (input D : List String),
        input.Nodup → D.Nodup →
        App.scoreRow fi input D =
          specSimpleScore (fun s => App.freqGetD fi s 1)
            input.toFinset D.toFinset)
    ∧ (∀ (sys : Train.System) (input : List String) (r : Train.TResult),
        (Train.procQuery input).Nodup →
        (∀ row ∈ sys.df, row.symptoms.Nodup) →
        r ∈ Train.simRaw sys input →
        r.similarity = specWeightedScore (Train.freqGet sys.df)
          (Train.procQuery input).toFinset r.all_symptoms.toFinset)
    ∧ (∀ (sys : App.System) (input : List String) (r : App.Result),
        input.Nodup →
        (∀ d ∈ sys.disease_data, d.symptoms.Nodup) →
        r ∈ App.diagnoseRaw sys input →
        r.similarity = specSimpleScore
          (fun s => App.freqGetD sys.symptom_freq s 1)
          input.toFinset r.all_symptoms.toFinset) := by
  refine ⟨train_scoreRow_spec, app_scoreRow_spec, ?_, ?_⟩
  · intro sys input r hI hrows hr
    rcases mem_simRaw hr with ⟨row, hrow, _, _, rfl⟩
    simp only [Train.TResult.similarity, Train.TResult.all_symptoms]
    exact train_scoreRow_spec _ _ _ hI (hrows row hrow)
  · intro sys input r hI hrows hr
    rcases mem_diagnoseRaw hr with ⟨d, hd, _, _, rfl⟩
    exact app_scoreRow_spec _ _ _ hI (hrows d hd)

/-- Witness for C3 at a concrete input. -/
theorem c3_score_formulas_witness :
    ([("abc")] : List String).Nodup ∧
      Train.scoreRow (fun _ => 1) [("abc")] [("abc")] =
        specWeightedScore (fun _ => 1)
          ([("abc")] : List String).toFinset
          ([("abc")] : List String).toFinset :=
  ⟨by decide,
    c3_score_formulas.1 (fun _ => 1) [("abc")] [("abc")] (by decide)
      (by decide)⟩

/-! ## Origin of merged results -/

theorem mem_mergeStep {m : List (String × Train.TResult)}
    {r : Train.TResult} {p : String × Train.TResult}
    (hp : p ∈ Train.mergeStep m r) : p ∈ m ∨ p = (r.disease, r) := by
  rw [Train.mergeStep] at hp
  split at hp
  · exact mem_dictInsert hp
  · split at hp
    · exact mem_dictInsert hp
    · exact Or.inl hp

theorem mem_mergeFold {simR : List Train.TResult}
    {m : List (String × Train.TResult)} {p : String × Train.TResult}
    (hp : p ∈ simR.foldl Train.mergeStep m) : p ∈ m ∨ p.2 ∈ simR := by
  induction simR generalizing m with
  | nil => exact Or.inl hp
  | cons r rs ih =>
    rw [List.foldl_cons] at hp
    rcases ih hp with h | h
    · rcases mem_mergeStep h with h | h
      · exact Or.inl h
      · right
        rw [h]
        exact List.mem_cons_self _ _
    · exact Or.inr (List.mem_cons_of_mem _ h)

theorem mem_clsFold {clsR : List Train.TResult}
    {m : List (String × Train.TResult)} {p : String × Train.TResult}
    (hp : p ∈ clsR.foldl
      (fun m r => dictInsert m r.disease r) m) : p ∈ m ∨ p.2 ∈ clsR := by
  induction clsR generalizing m with
  | nil => exact Or.inl hp
  | cons r rs ih =>
    rw [List.foldl_cons] at hp
    rcases ih hp with h | h
    · rcases mem_dictInsert h with h | h
      · exact Or.inl h
      · right
        rw [h]
        exact List.mem_cons_self _ _
    · exact Or.inr (List.mem_cons_of_mem _ h)

/-- Every value of the merged dict comes from the classifier list or from
the similarity list. -/
theorem mem_mergeMap_values {clsR simR : List Train.TResult}
    {v : Train.TResult}
    (hv : v ∈ (Train.mergeMap clsR simR).map Prod.snd) :
    v ∈ clsR ∨ v ∈ simR := by
  rcases List.mem_map.mp hv with ⟨p, hp, rfl⟩
  rw [Train.mergeMap] at hp
  rcases mem_mergeFold hp with h | h
  · rcases mem_clsFold h with h | h
    · simp at h
    · exact Or.inl h
  · exact Or.inr h

/-- Helper: inversion of membership in the classifier result list. -/
theorem mem_predictList {sys : Train.System} {input : List String}
    {r : Train.TResult}
    (hr : r ∈ (Train.predict_with_classifier sys input).getD []) :
    ∃ (dp : String × ℝ) (row : Row), 0.1 < dp.2 ∧
      r = Train.TResult.cls dp.1 dp.2 row.treatments row.symptoms := by
  rw [Train.predict_with_classifier] at hr
  rcases hco : sys.classifierOut with _ | f
  · rw [hco] at hr
    simp at hr
  · rw [hco] at hr
    simp only [Option.getD_some] at hr
    rcases List.mem_filterMap.mp hr with ⟨dp, hdp, heq⟩
    by_cases h : (0.1:ℝ) < dp.2
    · rw [if_pos h] at heq
      rcases hf : sys.df.find? (fun row => row.name == dp.1) with _ | row
      · rw [hf] at heq; cases heq
      · rw [hf] at heq
        exact ⟨dp, row, h, (Option.some_injective _ heq).symm⟩
    · rw [if_neg h] at heq; cases heq

/-! ## Threshold helpers -/

theorem predict_threshold {sys : Train.System} {input : List String}
    {r : Train.TResult}
    (hr : r ∈ (Train.predict_with_classifier sys input).getD []) :
    0.1 < r.similarity := by
  rcases mem_predictList hr with ⟨dp, row, hdp, rfl⟩
  exact hdp

theorem simRaw_threshold {sys : Train.System} {input : List String}
    {r : Train.TResult} (hr : r ∈ Train.simRaw sys input) :
    0.1 < r.similarity := by
  rcases mem_simRaw hr with ⟨row, _, _, h2, rfl⟩
  exact h2

theorem similarity_search_threshold {sys : Train.System}
    {input : List String} {n : ℕ} {r : Train.TResult}
    (hr : r ∈ Train.similarity_search sys input n) :
    0.1 < r.similarity := by
  rw [Train.similarity_search] at hr
  exact simRaw_threshold
    ((mem_sortKeyDesc Train.TResult.similarity).mp (List.mem_of_mem_take hr))

theorem train_diagnose_threshold {sys : Train.System}
    {input : List String} {n : ℕ} {r : Train.TResult}
    (hr : r ∈ Train.diagnose sys input n) : 0.1 < r.similarity := by
  simp only [Train.diagnose] at hr
  have h1 := (mem_sortKeyDesc Train.TResult.similarity).mp
    (List.mem_of_mem_take hr)
  rcases mem_mergeMap_values h1 with h | h
  · exact predict_threshold h
  · exact similarity_search_threshold h

theorem app_diagnose_threshold {sys : App.System} {t : Option String}
    {n : ℕ} {r : App.Result} (hr : r ∈ App.diagnose sys t n) :
    0.1 < r.similarity := by
  simp only [App.diagnose] at hr
  by_cases h : App.clean_input_symptoms t = []
  · rw [if_pos h] at hr
    simp at hr
  · rw [if_neg h] at hr
    have h1 := (mem_sortKeyDesc App.Result.similarity).mp
      (List.mem_of_mem_take hr)
    rcases mem_diagnoseRaw h1 with ⟨d, _, _, h2, rfl⟩
    exact h2

/-! ## Claim C2 -/

/-- C2: no result with score ≤ 0.1 is ever returned — the classifier
path, the similarity path (raw and truncated), the merged `diagnose` of
`train.py`, and the app's `diagnose` all only produce results with score
strictly greater than 0.1. -/
theorem c2_threshold_exclusion :
    (∀ (sys : Train.System) (input : List String) (r : Train.TResult),
        r ∈ (Train.predict_with_classifier sys input).getD [] →
        0.1 < r.similarity)
    ∧ (∀ (sys : Train.System) (input : List String) (n : ℕ)
        (r : Train.TResult),
        r ∈ Train.similarity_search sys input n → 0.1 < r.similarity)
    ∧ (∀ (sys : Train.System) (input : List String) (n : ℕ)
        (r : Train.TResult),
        r ∈ Train.diagnose sys input n → 0.1 < r.similarity)
    ∧ (∀ (sys : App.System) (t : Option String) (n : ℕ) (r : App.Result),
        r ∈ App.diagnose sys t n → 0.1 < r.similarity) :=
  ⟨fun _ _ _ hr => predict_threshold hr,
   fun _ _ _ _ hr => similarity_search_threshold hr,
   fun _ _ _ _ hr => train_diagnose_threshold hr,
   fun _ _ _ _ hr => app_diagnose_threshold hr⟩

theorem predict_witSys_eval :
    Train.predict_with_classifier witSys [] =
      some [Train.TResult.cls ("A") (1/2) ("t") [("abc")]] := by
  rw [Train.predict_with_classifier]
  simp only [witSys, sortKeyDesc, insertDesc, List.take, List.filterMap]
  rw [if_pos (by norm_num : (0.1:ℝ) < 1 / 2)]
  simp [witRow, List.find?]

/-- Helper: the weighted score of an empty processed query is 0 against
any symptom list. -/
theorem train_scoreRow_empty_input (freq : String → ℕ) (D : List String) :
    Train.scoreRow freq [] D = 0 := by
  rw [Train.scoreRow]
  norm_num [interCount, interList, firstSeen, firstSeenAux]

/-- Helper: with an empty token list, the similarity path produces no
results at all (every per-row score is 0 ≤ 0.1). -/
theorem simRaw_empty_input (sys : Train.System) :
    Train.simRaw sys [] = [] := by
  rw [Train.simRaw]
  rw [List.filterMap_eq_nil_iff]
  intro row _
  rw [Train.rowResult]
  by_cases h1 : row.symptoms = []
  · rw [if_pos h1]
  · rw [if_neg h1, if_neg]
    simp only [Train.procQuery, List.map_nil]
    rw [train_scoreRow_empty_input]
    norm_num

theorem similarity_search_empty_input (sys : Train.System) (n : ℕ) :
    Train.similarity_search sys [] n = [] := by
  rw [Train.similarity_search, simRaw_empty_input]
  simp [sortKeyDesc]

/-- Helper: full evaluation of `diagnose` on the witness system with an
empty token list — the classifier result survives the merge. -/
theorem diagnose_witSys_eval :
    Train.diagnose witSys [] 5 =
      [Train.TResult.cls ("A") (1/2) ("t") [("abc")]] := by
  simp only [Train.diagnose, predict_witSys_eval, Option.getD_some,
    similarity_search_empty_input, Train.mergeMap, List.foldl_cons,
    List.foldl_nil, dictInsert, List.map_cons, List.map_nil,
    sortKeyDesc, insertDesc, List.take]

/-- Witness for C2: a concrete classifier result of the witness system,
with its score above the threshold by the theorem. -/
theorem c2_threshold_exclusion_witness :
    (Train.TResult.cls ("A") (1/2) ("t") [("abc")] ∈
      (Train.predict_with_classifier witSys []).getD []) ∧
      (0.1:ℝ) <
        (Train.TResult.cls ("A") (1/2) ("t") [("abc")]).similarity := by
  have hmem : Train.TResult.cls ("A") (1/2) ("t") [("abc")] ∈
      (Train.predict_with_classifier witSys []).getD [] := by
    rw [predict_witSys_eval]
    simp
  exact ⟨hmem, c2_threshold_exclusion.1 witSys [] _ hmem⟩

/-! ## Claim C5 -/

/-- C5 counterexample: with an active classifier, `train.py`'s `diagnose`
returns a non-empty result list even for an empty token set, so the claim
"diagnose returns an empty sequence … regardless of whether the
classifier path is active" fails on the token-list `diagnose`. -/
theorem c5_empty_input_counterexample :
    Train.diagnose witSys [] 5 ≠ [] := by
  rw [diagnose_witSys_eval]
  simp

/-- C5 (amended): for every input text that is empty, null/non-string, or
normalizes to an empty token set, the app's raw-text `diagnose` returns
the empty sequence and raises no error; `train.py`'s token-list
`diagnose` returns the empty sequence on an empty token set whenever the
classifier path is inactive (with an active classifier the classifier's
results may be returned — see the counterexample). -/
theorem c5_empty_input_amended :
    (∀ (sys : App.System) (t : Option String) (n : ℕ),
        App.clean_input_symptoms t = [] → App.diagnose sys t n = [])
    ∧ (∀ (sys : Train.System) (n : ℕ), sys.classifierOut = none →
        Train.diagnose sys [] n = []) := by
  constructor
  · intro sys t n h
    simp [App.diagnose, h]
  · intro sys n h
    simp only [Train.diagnose, Train.predict_with_classifier, h,
      similarity_search_empty_input, Option.getD_none, Train.mergeMap,
      List.foldl_nil, List.map_nil, sortKeyDesc, List.take_nil]

/-- Witness for C5 (amended) at concrete inputs. -/
theorem c5_empty_input_amended_witness :
    (App.clean_input_symptoms none = [] ∧ App.diagnose App.demo none 5 = [])
    ∧ (witSysNone.classifierOut = none ∧
        Train.diagnose witSysNone [] 5 = []) :=
  ⟨⟨rfl, c5_empty_input_amended.1 App.demo none 5 rfl⟩,
   ⟨rfl, c5_empty_input_amended.2 witSysNone 5 rfl⟩⟩

/-! ## Lookup behaviour of the merge fold (for C1) -/

theorem lookup_clsFold_ne {clsR : List Train.TResult}
    {m0 : List (String × Train.TResult)} {d : String}
    (h : ∀ r ∈ clsR, r.disease ≠ d) :
    (clsR.foldl (fun m r => dictInsert m r.disease r) m0).lookup d =
      m0.lookup d := by
  induction clsR generalizing m0 with
  | nil => rfl
  | cons r rs ih =>
    rw [List.foldl_cons]
    rw [ih (fun x hx => h x (List.mem_cons_of_mem _ hx))]
    exact lookup_dictInsert_ne m0 r
      (Ne.symm (h r (List.mem_cons_self _ _)))

theorem lookup_clsFold_mem {clsR : List Train.TResult}
    {m0 : List (String × Train.TResult)} {rc : Train.TResult}
    (hnd : (clsR.map Train.TResult.disease).Nodup) (hm : rc ∈ clsR) :
    (clsR.foldl (fun m r => dictInsert m r.disease r) m0).lookup
      rc.disease = some rc := by
  induction clsR generalizing m0 with
  | nil => cases hm
  | cons r rs ih =>
    rw [List.map_cons, List.nodup_cons] at hnd
    rcases List.mem_cons.mp hm with rfl | hm
    · rw [List.foldl_cons]
      rw [lookup_clsFold_ne]
      · exact lookup_dictInsert_self m0 rc.disease rc
      · intro x hx he
        exact hnd.1 (he ▸ List.mem_map_of_mem Train.TResult.disease hx)
    · rw [List.foldl_cons]
      exact ih hnd.2 hm

theorem lookup_mergeStep_ne {m : List (String × Train.TResult)}
    {r : Train.TResult} {d : String} (h : r.disease ≠ d) :
    (Train.mergeStep m r).lookup d = m.lookup d := by
  rw [Train.mergeStep]
  split
  · exact lookup_dictInsert_ne m r (Ne.symm h)
  · split
    · exact lookup_dictInsert_ne m r (Ne.symm h)
    · rfl

theorem lookup_simFold_ne {simR : List Train.TResult}
    {m0 : List (String × Train.TResult)} {d : String}
    (h : ∀ r ∈ simR, r.disease ≠ d) :
    (simR.foldl Train.mergeStep m0).lookup d = m0.lookup d := by
  induction simR generalizing m0 with
  | nil => rfl
  | cons r rs ih =>
    rw [List.foldl_cons, ih (fun x hx => h x (List.mem_cons_of_mem _ hx))]
    exact lookup_mergeStep_ne (h r (List.mem_cons_self _ _))

theorem lookup_mergeStep_self {m : List (String × Train.TResult)}
    {r : Train.TResult} :
    (Train.mergeStep m r).lookup r.disease =
      some (match m.lookup r.disease with
        | none => r
        | some r0 =>
          if r0.similarity < r.similarity then r else r0) := by
  rw [Train.mergeStep]
  rcases h : m.lookup r.disease with _ | r0
  · simp only [h]
    exact lookup_dictInsert_self m r.disease r
  · simp only [h]
    by_cases hlt : r0.similarity < r.similarity
    · rw [if_pos hlt, if_pos hlt]
      exact lookup_dictInsert_self m r.disease r
    · rw [if_neg hlt, if_neg hlt]
      exact h

theorem lookup_simFold_mem {simR : List Train.TResult}
    {m0 : List (String × Train.TResult)} {rs : Train.TResult}
    (hnd : (simR.map Train.TResult.disease).Nodup) (hm : rs ∈ simR) :
    (simR.foldl Train.mergeStep m0).lookup rs.disease =
      some (match m0.lookup rs.disease with
        | none => rs
        | some r0 =>
          if r0.similarity < rs.similarity then rs else r0) := by
  induction simR generalizing m0 with
  | nil => cases hm
  | cons r rest ih =>
    rw [List.map_cons, List.nodup_cons] at hnd
    rcases List.mem_cons.mp hm with rfl | hm
    · rw [List.foldl_cons]
      rw [lookup_simFold_ne]
      · exact lookup_mergeStep_self
      · intro x hx he
        exact hnd.1 (he ▸ List.mem_map_of_mem Train.TResult.disease hx)
    · rw [List.foldl_cons]
      rw [ih hnd.2 hm, lookup_mergeStep_ne]
      intro he
      exact hnd.1 (he ▸ List.mem_map_of_mem Train.TResult.disease hm)

/-- Helper: classifier results carry the `classification` method tag. -/
theorem predict_method {sys : Train.System} {input : List String}
    {r : Train.TResult}
    (hr : r ∈ (Train.predict_with_classifier sys input).getD []) :
    r.method = ("classification") := by
  rcases mem_predictList hr with ⟨dp, row, _, rfl⟩
  rfl

/-- Helper: similarity results carry the `similarity` method tag. -/
theorem similarity_search_method {sys : Train.System}
    {input : List String} {n : ℕ} {r : Train.TResult}
    (hr : r ∈ Train.similarity_search sys input n) :
    r.method = ("similarity") := by
  rw [Train.similarity_search] at hr
  rcases mem_simRaw ((mem_sortKeyDesc Train.TResult.similarity).mp
    (List.mem_of_mem_take hr)) with ⟨row, _, _, _, rfl⟩
  rfl

/-! ## Claim C1 -/

/-- C1: in `diagnose`'s merge step, a disease name present in both lists
keeps the classifier result unless the similarity score is strictly
greater (then the similarity result wins, and the surviving result's
method tag names the winning source); a name present in only one list is
kept unchanged.  Stated for name-duplicate-free result lists, which is
how the two paths produce them. -/
theorem c1_merge_preference (sys : Train.System) (input : List String)
    (n : ℕ)
    (hc : (((Train.predict_with_classifier sys input).getD []).map
      Train.TResult.disease).Nodup)
    (hs : ((Train.similarity_search sys input (n * 2)).map
      Train.TResult.disease).Nodup) :
    (∀ rc ∈ (Train.predict_with_classifier sys input).getD [],
      ∀ rs ∈ Train.similarity_search sys input (n * 2),
        rs.disease = rc.disease →
        (Train.mergeMap ((Train.predict_with_classifier sys input).getD [])
            (Train.similarity_search sys input (n * 2))).lookup rc.disease =
          some (if rc.similarity < rs.similarity then rs else rc) ∧
        (if rc.similarity < rs.similarity then rs else rc).method =
          (if rc.similarity < rs.similarity then ("similarity")
            else ("classification")))
    ∧ (∀ rc ∈ (Train.predict_with_classifier sys input).getD [],
        (∀ rs ∈ Train.similarity_search sys input (n * 2),
          rs.disease ≠ rc.disease) →
        (Train.mergeMap ((Train.predict_with_classifier sys input).getD [])
            (Train.similarity_search sys input (n * 2))).lookup rc.disease =
          some rc)
    ∧ (∀ rs ∈ Train.similarity_search sys input (n * 2),
        (∀ rc ∈ (Train.predict_with_classifier sys input).getD [],
          rc.disease ≠ rs.disease) →
        (Train.mergeMap ((Train.predict_with_classifier sys input).getD [])
            (Train.similarity_search sys input (n * 2))).lookup rs.disease =
          some rs) := by
  refine ⟨?_, ?_, ?_⟩
  · intro rc hrc rs hrs hd
    constructor
    · rw [Train.mergeMap, ← hd, lookup_simFold_mem hs hrs, hd,
        lookup_clsFold_mem hc hrc]
    · by_cases hlt : rc.similarity < rs.similarity
      · rw [if_pos hlt, if_pos hlt]
        exact similarity_search_method hrs
      · rw [if_neg hlt, if_neg hlt]
        exact predict_method hrc
  · intro rc hrc hnone
    rw [Train.mergeMap, lookup_simFold_ne, lookup_clsFold_mem hc hrc]
    exact hnone
  · intro rs hrs hnone
    rw [Train.mergeMap, lookup_simFold_mem hs hrs, lookup_clsFold_ne]
    · rfl
    · exact hnone

/-- Witness for C1: on the witness system with an empty query the
classifier list is `[("A", 1/2)]`, the similarity list is empty, and the
merged dict keeps the classifier result unchanged. -/
theorem c1_merge_preference_witness :
    ((((Train.predict_with_classifier witSys []).getD []).map
      Train.TResult.disease).Nodup) ∧
    (((Train.similarity_search witSys [] (5 * 2)).map
      Train.TResult.disease).Nodup) ∧
    (Train.mergeMap ((Train.predict_with_classifier witSys []).getD [])
        (Train.similarity_search witSys [] (5 * 2))).lookup ("A") =
      some (Train.TResult.cls ("A") (1/2) ("t") [("abc")]) := by
  have h1 : (((Train.predict_with_classifier witSys []).getD []).map
      Train.TResult.disease).Nodup := by
    rw [predict_witSys_eval]
    simp [Train.TResult.disease]
  have h2 : (((Train.similarity_search witSys [] (5 * 2)).map
      Train.TResult.disease).Nodup) := by
    rw [similarity_search_empty_input]
    simp
  have hmem : Train.TResult.cls ("A") (1/2) ("t") [("abc")] ∈
      (Train.predict_with_classifier witSys []).getD [] := by
    rw [predict_witSys_eval]
    simp
  have hnone : ∀ rs ∈ Train.similarity_search witSys [] (5 * 2),
      rs.disease ≠ (Train.TResult.cls ("A") (1/2) ("t") [("abc")]).disease := by
    intro rs hrs
    rw [similarity_search_empty_input] at hrs
    exact absurd hrs (List.not_mem_nil rs)
  exact ⟨h1, h2,
    (c1_merge_preference witSys [] 5 h1 h2).2.1 _ hmem hnone⟩

/-! ## Claim C4 -/

/-- C4: the similarity scorer's output (train) and the app's `diagnose`
output are non-increasing in score; ties keep catalog iteration order
(filtering the sorted candidate list on any one score value yields the
same subsequence as filtering the catalog-order candidate list — the
sorts are stable).  The merged `diagnose` output of `train.py` is also
non-increasing. -/
theorem c4_ranking_order :
    (∀ (sys : Train.System) (input : List String) (n : ℕ),
        (Train.similarity_search sys input n).Pairwise
          (fun a b => b.similarity ≤ a.similarity))
    ∧ (∀ (sys : Train.System) (input : List String) (c : ℝ),
        (sortKeyDesc Train.TResult.similarity
            (Train.simRaw sys input)).filter
            (fun r => r.similarity = c) =
          (Train.simRaw sys input).filter (fun r => r.similarity = c))
    ∧ (∀ (sys : App.System) (t : Option String) (n : ℕ),
        (App.diagnose sys t n).Pairwise
          (fun a b => b.similarity ≤ a.similarity))
    ∧ (∀ (sys : App.System) (input : List String) (c : ℝ),
        (sortKeyDesc App.Result.similarity
            (App.diagnoseRaw sys input)).filter
            (fun r => r.similarity = c) =
          (App.diagnoseRaw sys input).filter (fun r => r.similarity = c))
    ∧ (∀ (sys : Train.System) (input : List String) (n : ℕ),
        (Train.diagnose sys input n).Pairwise
          (fun a b => b.similarity ≤ a.similarity)) := by
  refine ⟨?_, ?_, ?_, ?_, ?_⟩
  · intro sys input n
    exact (pairwise_sortKeyDesc Train.TResult.similarity _).sublist
      (List.take_sublist _ _)
  · intro sys input c
    exact filter_sortKeyDesc Train.TResult.similarity c _
  · intro sys t n
    rw [App.diagnose]
    split
    · exact List.Pairwise.nil
    · exact (pairwise_sortKeyDesc App.Result.similarity _).sublist
        (List.take_sublist _ _)
  · intro sys input c
    exact filter_sortKeyDesc App.Result.similarity c _
  · intro sys input n
    exact (pairwise_sortKeyDesc Train.TResult.similarity _).sublist
      (List.take_sublist _ _)

/-! ## Claim C10 -/

/-- C10: in every result produced by the similarity scorers, the
`matching_symptoms` field is (as a set) the intersection of the processed
input token set with that disease's symptom set, `match_count` is the
cardinality of that intersection, and `matching_symptoms` is a subset of
`all_symptoms`. -/
theorem c10_matching_invariants :
    (∀ (sys : Train.System) (input : List String) (r : Train.TResult),
        r ∈ Train.simRaw sys input →
        r.matching_symptoms.toFinset =
          (Train.procQuery input).toFinset ∩ r.all_symptoms.toFinset ∧
        r.match_count =
          ((Train.procQuery input).toFinset ∩ r.all_symptoms.toFinset).card ∧
        r.matching_symptoms.toFinset ⊆ r.all_symptoms.toFinset)
    ∧ (∀ (sys : App.System) (input : List String) (r : App.Result),
        r ∈ App.diagnoseRaw sys input →
        r.matching_symptoms.toFinset =
          input.toFinset ∩ r.all_symptoms.toFinset ∧
        r.match_count = (input.toFinset ∩ r.all_symptoms.toFinset).card ∧
        r.matching_symptoms.toFinset ⊆ r.all_symptoms.toFinset) := by
  constructor
  · intro sys input r hr
    rcases mem_simRaw hr with ⟨row, _, _, _, rfl⟩
    simp only [Train.TResult.matching_symptoms, Train.TResult.all_symptoms,
      Train.TResult.match_count]
    refine ⟨toFinset_interList _ _, interCount_eq _ _, ?_⟩
    rw [toFinset_interList]
    exact Finset.inter_subset_right
  · intro sys input r hr
    rcases mem_diagnoseRaw hr with ⟨d, _, _, _, rfl⟩
    refine ⟨toFinset_interList _ _, interCount_eq _ _, ?_⟩
    rw [toFinset_interList]
    exact Finset.inter_subset_right

/-- Helper: concrete score of the witness row against the query `abc`. -/
theorem witSysNone_scoreRow_pos :
    (0.1:ℝ) < Train.scoreRow (Train.freqGet witSysNone.df)
      (Train.procQuery [("abc")]) witRow.symptoms := by
  have hlog : 0 < Real.log 2 := Real.log_pos (by norm_num)
  have hw : 0 < (Real.log 2)⁻¹ := inv_pos.mpr hlog
  have h1 : interCount (Train.procQuery [("abc")]) witRow.symptoms = 1 := by
    decide
  have h2 : unionCount (Train.procQuery [("abc")]) witRow.symptoms = 1 := by
    decide
  have h3 : witRow.symptoms.filter
      (fun s => (Train.procQuery [("abc")]).contains s) = [("abc")] := by
    decide
  have h4 : Train.freqGet witSysNone.df ("abc") = 1 := by decide
  have h5 : Train.procQuery [("abc")] ≠ [] := by decide
  have h6 : (Train.procQuery [("abc")]).length = 1 := by decide
  rw [Train.scoreRow]
  simp only [h1, h2, h3, h4, h6, List.map_cons, List.map_nil,
    List.sum_cons, List.sum_nil, if_neg h5]
  norm_num
  nlinarith [hw]

/-- Helper: the single raw similarity result of the witness system on the
query `abc`. -/
theorem witSysNone_simRaw_eval :
    Train.simRaw witSysNone [("abc")] =
      [Train.TResult.sim ("A")
        (Train.scoreRow (Train.freqGet witSysNone.df)
          (Train.procQuery [("abc")]) witRow.symptoms)
        [("abc")] [("abc")] ("t") ("Other") 1] := by
  have hne : witRow.symptoms ≠ [] := by decide
  have hil : interList (Train.procQuery [("abc")]) witRow.symptoms =
      [("abc")] := by decide
  have hic : interCount (Train.procQuery [("abc")]) witRow.symptoms = 1 := by
    decide
  have hcat : Train.categoryGet witSysNone.df ("A") = ("Other") := by decide
  show List.filterMap _ [witRow] = _
  rw [List.filterMap_cons]
  rw [Train.rowResult, if_neg hne, if_pos witSysNone_scoreRow_pos]
  simp only [List.filterMap_nil, hil, hic, hcat]
  rfl

/-- Witness for C10 at a concrete result of the witness system. -/
theorem c10_matching_invariants_witness :
    (Train.TResult.sim ("A")
        (Train.scoreRow (Train.freqGet witSysNone.df)
          (Train.procQuery [("abc")]) witRow.symptoms)
        [("abc")] [("abc")] ("t") ("Other") 1 ∈
      Train.simRaw witSysNone [("abc")]) ∧
    ([("abc")] : List String).toFinset =
      (Train.procQuery [("abc")]).toFinset ∩
        ([("abc")] : List String).toFinset := by
  have hmem : Train.TResult.sim ("A")
      (Train.scoreRow (Train.freqGet witSysNone.df)
        (Train.procQuery [("abc")]) witRow.symptoms)
      [("abc")] [("abc")] ("t") ("Other") 1 ∈
      Train.simRaw witSysNone [("abc")] := by
    rw [witSysNone_simRaw_eval]
    exact List.mem_cons_self _ _
  exact ⟨hmem,
    (c10_matching_invariants.1 witSysNone [("abc")] _ hmem).1⟩

/-! ## Claim C7 -/

/-- Helper: first-seen deduplication commutes with filtering. -/
theorem firstSeenAux_filter (p : String → Bool) (l : List String) :
    ∀ seen₁ seen₂ : List String,
      (∀ a, p a = true → (a ∈ seen₁ ↔ a ∈ seen₂)) →
      firstSeenAux seen₁ (l.filter p) = (firstSeenAux seen₂ l).filter p := by
  induction l with
  | nil => intro _ _ _; rfl
  | cons x xs ih =>
    intro seen₁ seen₂ hinv
    by_cases hp : p x = true
    · rw [List.filter_cons_of_pos hp]
      by_cases hx : x ∈ seen₂
      · have hx₁ : x ∈ seen₁ := (hinv x hp).mpr hx
        rw [firstSeenAux, if_pos (by simpa [List.elem_eq_mem] using hx₁),
          firstSeenAux, if_pos (by simpa [List.elem_eq_mem] using hx)]
        exact ih seen₁ seen₂ hinv
      · have hx₁ : x ∉ seen₁ := fun hc => hx ((hinv x hp).mp hc)
        rw [firstSeenAux, if_neg (by simpa [List.elem_eq_mem] using hx₁),
          firstSeenAux, if_neg (by simpa [List.elem_eq_mem] using hx),
          List.filter_cons_of_pos hp]
        congr 1
        refine ih (x :: seen₁) (x :: seen₂) ?_
        intro a ha
        simp only [List.mem_cons]
        rw [hinv a ha]
    · rw [List.filter_cons_of_neg hp]
      by_cases hx : x ∈ seen₂
      · rw [firstSeenAux, if_pos (by simpa [List.elem_eq_mem] using hx)]
        exact ih seen₁ seen₂ hinv
      · rw [firstSeenAux, if_neg (by simpa [List.elem_eq_mem] using hx),
          List.filter_cons_of_neg hp]
        refine ih seen₁ (x :: seen₂) ?_
        intro a ha
        have hax : a ≠ x := fun he => by rw [he] at ha; exact hp ha
        simp only [List.mem_cons, hinv a ha]
        constructor
        · exact Or.inr
        · rintro (h | h)
          · exact absurd h hax
          · exact h

theorem firstSeen_filter (p : String → Bool) (l : List String) :
    firstSeen (l.filter p) = (firstSeen l).filter p :=
  firstSeenAux_filter p l [] [] (fun _ _ => Iff.rfl)

/-- C7: the training-data cleaner is exactly the live-query cleaner
followed by stop-word removal — so the stop words are removed from every
training-path output, while the live path applies no stop-word filter:
for example `the` survives live-query cleaning but is removed by
training-data cleaning. -/
theorem c7_stopword_asymmetry :
    (∀ t : Option String,
        Train.clean_symptoms t =
          (App.clean_input_symptoms t).filter
            (fun s => !(Train.stop_words.contains s)))
    ∧ ("the") ∈ App.clean_input_symptoms (some ("the"))
    ∧ ("the") ∉ Train.clean_symptoms (some ("the")) := by
  refine ⟨?_, by decide, by decide⟩
  intro t
  rcases t with _ | text
  · rfl
  · rw [Train.clean_symptoms, App.clean_input_symptoms]
    by_cases h : text = ""
    · subst h
      rfl
    · rw [if_neg h]
      exact firstSeen_filter _ (cleanPieces text)

/-- Witness for C7 at a concrete input. -/
theorem c7_stopword_asymmetry_witness :
    Train.clean_symptoms (some ("fever and cough")) =
      (App.clean_input_symptoms (some ("fever and cough"))).filter
        (fun s => !(Train.stop_words.contains s)) :=
  c7_stopword_asymmetry.1 (some ("fever and cough"))

/-! ## Claim C6 -/

/-- C6 counterexample: `train.py`'s `get_symptom_suggestions` applies no
minimum length to the search text — a single-character text still returns
matches, contradicting "whenever the prefix is shorter than 2 characters
it returns the empty sequence". -/
theorem c6_suggest_counterexample :
    ("a" : String).length < 2 ∧
      Train.get_symptom_suggestions [witRow] ("a") 10 = [("abc")] := by
  constructor
  · decide
  · decide

/-- Helper: stripping never lengthens a character list. -/
theorem pyStrip_length_le (cs : List Char) :
    (pyStrip cs).length ≤ cs.length := by
  rw [pyStrip]
  calc ((cs.dropWhile pyIsSpace).reverse.dropWhile pyIsSpace).reverse.length
      = ((cs.dropWhile pyIsSpace).reverse.dropWhile pyIsSpace).length := by
        rw [List.length_reverse]
    _ ≤ (cs.dropWhile pyIsSpace).reverse.length :=
        List.Sublist.length_le (List.dropWhile_sublist _)
    _ = (cs.dropWhile pyIsSpace).length := by rw [List.length_reverse]
    _ ≤ cs.length := List.Sublist.length_le (List.dropWhile_sublist _)

/-- Helper: the processed search text is never longer than the raw one. -/
theorem procPre_length_le (p : String) : (procPre p).length ≤ p.length := by
  show (pyStrip (pyLower p.data)).length ≤ p.data.length
  calc (pyStrip (pyLower p.data)).length ≤ (pyLower p.data).length :=
      pyStrip_length_le _
    _ = p.data.length := List.length_map _ _

/-- C6 (amended): the app's suggester returns the empty sequence whenever
the prefix is shorter than 2 characters; both suggesters otherwise return
exactly the index tokens starting with the lowercased/stripped prefix,
sorted by descending frequency with ties kept in index insertion order,
truncated to the requested count; but `train.py`'s suggester applies no
minimum-length guard at all (its defining equation below is
unconditional, and see the counterexample). -/
theorem c6_suggest_amended :
    (∀ (sys : App.System) (p : String) (m : ℕ), p.length < 2 →
        App.get_symptom_suggestions sys p m = [])
    ∧ (∀ (sys : App.System) (p : String) (m : ℕ),
        ¬(procPre p = "" ∨ (procPre p).length < 2 ∨
            sys.symptom_freq = []) →
        App.get_symptom_suggestions sys p m =
          ((App.suggPairs sys.symptom_freq p).take m).map Prod.fst)
    ∧ (∀ (fi : List (String × ℕ)) (p : String),
        (App.suggPairs fi p).Perm
          (((fi.map Prod.fst).filter
              (fun s => pyStartsWith s (procPre p))).map
            (fun s => (s, App.freqGetD fi s 0))))
    ∧ (∀ (fi : List (String × ℕ)) (p : String),
        (App.suggPairs fi p).Pairwise (fun a b => b.2 ≤ a.2))
    ∧ (∀ (fi : List (String × ℕ)) (p : String) (c : ℕ),
        (App.suggPairs fi p).filter (fun sf => sf.2 = c) =
          (((fi.map Prod.fst).filter
              (fun s => pyStartsWith s (procPre p))).map
            (fun s => (s, App.freqGetD fi s 0))).filter
            (fun sf => sf.2 = c))
    ∧ (∀ (df : List Row) (p : String) (m : ℕ),
        Train.get_symptom_suggestions df p m =
          ((Train.suggPairs df p).take m).map Prod.fst)
    ∧ (∀ (df : List Row) (p : String),
        (Train.suggPairs df p).Perm
          ((Train.symptom_freq df).filter
            (fun sf => pyStartsWith sf.1 (procPre p))))
    ∧ (∀ (df : List Row) (p : String),
        (Train.suggPairs df p).Pairwise (fun a b => b.2 ≤ a.2))
    ∧ (∀ (df : List Row) (p : String) (c : ℕ),
        (Train.suggPairs df p).filter (fun sf => sf.2 = c) =
          ((Train.symptom_freq df).filter
            (fun sf => pyStartsWith sf.1 (procPre p))).filter
            (fun sf => sf.2 = c)) := by
  refine ⟨?_, ?_, ?_, ?_, ?_, ?_, ?_, ?_, ?_⟩
  · intro sys p m hp
    have hlen : (procPre p).length < 2 :=
      lt_of_le_of_lt (procPre_length_le p) hp
    rw [App.get_symptom_suggestions, if_pos (Or.inr (Or.inl hlen))]
  · intro sys p m hg
    rw [App.get_symptom_suggestions, if_neg hg]
  · intro fi p
    exact perm_sortKeyDesc Prod.snd _
  · intro fi p
    exact pairwise_sortKeyDesc Prod.snd _
  · intro fi p c
    exact filter_sortKeyDesc Prod.snd c _
  · intro df p m
    rfl
  · intro df p
    exact perm_sortKeyDesc Prod.snd _
  · intro df p
    exact pairwise_sortKeyDesc Prod.snd _
  · intro df p c
    exact filter_sortKeyDesc Prod.snd c _

/-- Witness for C6 (amended): the app's suggester on the demo data with a
one-character prefix. -/
theorem c6_suggest_amended_witness :
    ("a" : String).length < 2 ∧
      App.get_symptom_suggestions App.demo ("a") 5 = [] :=
  ⟨by decide, c6_suggest_amended.1 App.demo ("a") 5 (by decide)⟩

/-! ## Claim C9 -/

theorem splitComma_no_comma {a : List Char} (ha : ',' ∉ a) :
    splitComma a = [a] := by
  induction a with
  | nil => rfl
  | cons c cs ih =>
    have hc : ¬ c = ',' := fun he => ha (by rw [← he]; exact List.mem_cons_self c cs)
    have ha' : ',' ∉ cs := fun hm => ha (List.mem_cons_of_mem _ hm)
    rw [splitComma, if_neg hc, ih ha']

theorem splitComma_append {a : List Char} (rest : List Char)
    (ha : ',' ∉ a) :
    splitComma (a ++ ',' :: rest) = a :: splitComma rest := by
  induction a with
  | nil => rw [List.nil_append, splitComma, if_pos rfl]
  | cons c cs ih =>
    have hc : ¬ c = ',' := fun he => ha (by rw [← he]; exact List.mem_cons_self c cs)
    have ha' : ',' ∉ cs := fun hm => ha (List.mem_cons_of_mem _ hm)
    rw [List.cons_append, splitComma, if_neg hc, ih ha']

theorem joinComma_data_cons (s t : String) (rest : List String) :
    (joinComma (s :: t :: rest)).data =
      s.data ++ ',' :: (joinComma (t :: rest)).data := by
  show (s ++ "," ++ joinComma (t :: rest)).data = _
  rw [String.data_append, String.data_append, List.append_assoc]
  congr 1

theorem splitComma_joinComma (ts : List String) (hts : ts ≠ [])
    (hnc : ∀ s ∈ ts, ',' ∉ s.data) :
    splitComma (joinComma ts).data = ts.map String.data := by
  induction ts with
  | nil => cases hts rfl
  | cons s rest ih =>
    rcases rest with _ | ⟨t, rest'⟩
    · exact splitComma_no_comma (hnc s (List.mem_cons_self _ _))
    · rw [joinComma_data_cons,
        splitComma_append _ (hnc s (List.mem_cons_self _ _)),
        ih (by simp) (fun x hx => hnc x (List.mem_cons_of_mem _ hx))]
      rfl

/-- Destructured form of `normalTok`. -/
theorem normalTok_props {s : String} (h : normalTok s = true) :
    pyStrip s.data = s.data ∧ pyLower s.data = s.data ∧
      (∀ c ∈ s.data, (isWordChar c || pyIsSpace c) = true) ∧
      2 < s.length := by
  rw [normalTok] at h
  simp only [Bool.and_eq_true, decide_eq_true_eq, List.all_eq_true] at h
  obtain ⟨⟨⟨h1, h2⟩, h3⟩, h4⟩ := h
  exact ⟨h1, h2, h3, h4⟩

theorem normalTok_no_comma {s : String} (h : normalTok s = true) :
    ',' ∉ s.data := by
  intro hm
  have h3 := (normalTok_props h).2.2.1 ',' hm
  exact absurd h3 (by decide)

/-- A comma-join of already-normalized tokens cleans back to exactly the
token list. -/
theorem cleanPieces_joinComma (ts : List String) (hts : ts ≠ [])
    (hn : ∀ s ∈ ts, normalTok s = true) :
    cleanPieces (joinComma ts) = ts := by
  have hnc : ∀ s ∈ ts, ',' ∉ s.data :=
    fun s hs => normalTok_no_comma (hn s hs)
  simp only [cleanPieces]
  rw [splitComma_joinComma ts hts hnc, List.map_map, List.map_map]
  have hone : ∀ s ∈ ts, (((fun s => String.mk (stripPunct s.data)) ∘
      (fun p => String.mk (pyLower (pyStrip p)))) ∘ String.data) s = s := by
    intro s hs
    rcases normalTok_props (hn s hs) with ⟨h1, h2, h3, _⟩
    show String.mk (stripPunct (pyLower (pyStrip s.data))) = s
    rw [h1, h2, stripPunct, List.filter_eq_self.mpr h3]
  rw [List.map_congr_left hone]
  have hmapid : ts.map (fun a => a) = ts := List.map_id' ts
  rw [hmapid]
  refine List.filter_eq_self.mpr ?_
  intro s hs
  have h4 : 2 < s.length := (normalTok_props (hn s hs)).2.2.2
  have hne : s ≠ "" := by
    intro he
    rw [he] at h4
    exact absurd h4 (by decide)
  simp [hne, h4]

theorem joinComma_ne_empty {s : String} (rest : List String)
    (hs : 0 < s.length) : joinComma (s :: rest) ≠ "" := by
  intro he
  have hd : (joinComma (s :: rest)).data = [] := by rw [he]
  have hs' : 0 < s.data.length := hs
  rcases rest with _ | ⟨t, rest'⟩
  · rw [show joinComma [s] = s from rfl] at hd
    rw [hd] at hs'
    exact absurd hs' (by decide)
  · rw [joinComma_data_cons] at hd
    rcases List.append_eq_nil.mp hd with ⟨_, h2⟩
    cases h2

/-- C9 counterexample: the singleton token set `{the}` satisfies the
claim's "already normalized" conditions, yet the training-mode
normalizer maps its comma-join to the empty set (stop-word removal). -/
theorem c9_idempotence_counterexample :
    normalTok ("the") = true ∧ (["the"] : List String).Nodup ∧
      (Train.clean_symptoms (some (joinComma [("the")]))).toFinset ≠
        ([("the")] : List String).toFinset := by
  refine ⟨by decide, by decide, by decide⟩

/-- C9 (amended): normalization is idempotent — for every token set whose
tokens are lowercase, trimmed, made of word/space characters only, of
length > 2, and deduplicated, the live-query normalizer maps the
comma-joined text back to the same set; the training-data normalizer does
too provided the tokens are additionally stop-word-free (which its own
outputs always are). -/
theorem c9_idempotence_amended :
    (∀ ts : List String, ts.Nodup → (∀ s ∈ ts, normalTok s = true) →
        App.clean_input_symptoms (some (joinComma ts)) = ts)
    ∧ (∀ ts : List String, ts.Nodup →
        (∀ s ∈ ts, normalTok s = true ∧ s ∉ Train.stop_words) →
        Train.clean_symptoms (some (joinComma ts)) = ts) := by
  constructor
  · intro ts hnd hn
    rcases ts with _ | ⟨s, rest⟩
    · rfl
    · rw [App.clean_input_symptoms,
        if_neg (joinComma_ne_empty rest
          (lt_trans (by norm_num)
            (normalTok_props (hn s (List.mem_cons_self _ _))).2.2.2)),
        cleanPieces_joinComma _ (by simp) hn, firstSeen_eq_self hnd]
  · intro ts hnd hn
    rcases ts with _ | ⟨s, rest⟩
    · rfl
    · rw [Train.clean_symptoms,
        cleanPieces_joinComma _ (by simp) (fun x hx => (hn x hx).1)]
      rw [List.filter_eq_self.mpr ?_, firstSeen_eq_self hnd]
      intro x hx
      have : x ∉ Train.stop_words := (hn x hx).2
      simp [List.elem_eq_mem, this]

/-- Witness for C9 (amended) at a concrete normalized token list. -/
theorem c9_idempotence_amended_witness :
    (([("abc"), ("xyz")] : List String).Nodup ∧
      normalTok ("abc") = true ∧ normalTok ("xyz") = true) ∧
      App.clean_input_symptoms (some (joinComma [("abc"), ("xyz")])) =
        [("abc"), ("xyz")] :=
  ⟨⟨by decide, by decide, by decide⟩,
    c9_idempotence_amended.1 [("abc"), ("xyz")] (by decide) (by decide)⟩

/-! ## Claim C8: evaluation on the demo catalog -/

theorem demo_score_cc_pos :
    (0.1:ℝ) < App.scoreRow App.demoFreq
      [("cough"), ("runny nose"), ("sneezing")] App.rowCC.symptoms := by
  have hl1 : 0 < (Real.log 221)⁻¹ := inv_pos.mpr (Real.log_pos (by norm_num))
  have hl2 : 0 < (Real.log 191)⁻¹ := inv_pos.mpr (Real.log_pos (by norm_num))
  have hl3 : 0 < (Real.log 161)⁻¹ := inv_pos.mpr (Real.log_pos (by norm_num))
  have i1 : interCount [("cough"), ("runny nose"), ("sneezing")]
      App.rowCC.symptoms = 3 := by decide
  have u1 : unionCount [("cough"), ("runny nose"), ("sneezing")]
      App.rowCC.symptoms = 6 := by decide
  have f1 : App.rowCC.symptoms.filter
      (fun s => ([("cough"), ("runny nose"), ("sneezing")] :
        List String).contains s) =
      [("cough"), ("runny nose"), ("sneezing")] := by decide
  have q1 : App.freqGetD App.demoFreq ("cough") 1 = 220 := by decide
  have q2 : App.freqGetD App.demoFreq ("runny nose") 1 = 190 := by decide
  have q3 : App.freqGetD App.demoFreq ("sneezing") 1 = 160 := by decide
  rw [App.scoreRow]
  simp only [i1, u1, f1, q1, q2, q3, List.map_cons, List.map_nil,
    List.sum_cons, List.sum_nil]
  norm_num
  nlinarith [hl1, hl2, hl3]

theorem demo_score_inf_pos :
    (0.1:ℝ) < App.scoreRow App.demoFreq
      [("cough"), ("runny nose"), ("sneezing")]
      App.rowInfluenza.symptoms := by
  have hl1 : 0 < (Real.log 221)⁻¹ := inv_pos.mpr (Real.log_pos (by norm_num))
  have i1 : interCount [("cough"), ("runny nose"), ("sneezing")]
      App.rowInfluenza.symptoms = 1 := by decide
  have u1 : unionCount [("cough"), ("runny nose"), ("sneezing")]
      App.rowInfluenza.symptoms = 9 := by decide
  have f1 : App.rowInfluenza.symptoms.filter
      (fun s => ([("cough"), ("runny nose"), ("sneezing")] :
        List String).contains s) = [("cough")] := by decide
  have q1 : App.freqGetD App.demoFreq ("cough") 1 = 220 := by decide
  rw [App.scoreRow]
  simp only [i1, u1, f1, q1, List.map_cons, List.map_nil,
    List.sum_cons, List.sum_nil]
  norm_num
  nlinarith [hl1]

theorem demo_score_ar_pos :
    (0.1:ℝ) < App.scoreRow App.demoFreq
      [("cough"), ("runny nose"), ("sneezing")]
      App.rowAllergic.symptoms := by
  have hl2 : 0 < (Real.log 191)⁻¹ := inv_pos.mpr (Real.log_pos (by norm_num))
  have hl3 : 0 < (Real.log 161)⁻¹ := inv_pos.mpr (Real.log_pos (by norm_num))
  have i1 : interCount [("cough"), ("runny nose"), ("sneezing")]
      App.rowAllergic.symptoms = 2 := by decide
  have u1 : unionCount [("cough"), ("runny nose"), ("sneezing")]
      App.rowAllergic.symptoms = 6 := by decide
  have f1 : App.rowAllergic.symptoms.filter
      (fun s => ([("cough"), ("runny nose"), ("sneezing")] :
        List String).contains s) = [("sneezing"), ("runny nose")] := by
    decide
  have q2 : App.freqGetD App.demoFreq ("runny nose") 1 = 190 := by decide
  have q3 : App.freqGetD App.demoFreq ("sneezing") 1 = 160 := by decide
  rw [App.scoreRow]
  simp only [i1, u1, f1, q2, q3, List.map_cons, List.map_nil,
    List.sum_cons, List.sum_nil]
  norm_num
  nlinarith [hl2, hl3]

theorem demo_score_migraine :
    App.scoreRow App.demoFreq
      [("cough"), ("runny nose"), ("sneezing")]
      App.rowMigraine.symptoms = 0 := by
  have i1 : interCount [("cough"), ("runny nose"), ("sneezing")]
      App.rowMigraine.symptoms = 0 := by decide
  have u1 : unionCount [("cough"), ("runny nose"), ("sneezing")]
      App.rowMigraine.symptoms = 8 := by decide
  have f1 : App.rowMigraine.symptoms.filter
      (fun s => ([("cough"), ("runny nose"), ("sneezing")] :
        List String).contains s) = [] := by decide
  rw [App.scoreRow]
  simp only [i1, u1, f1, List.map_nil, List.sum_nil]
  norm_num

theorem demo_score_fp :
    App.scoreRow App.demoFreq
      [("cough"), ("runny nose"), ("sneezing")]
      App.rowFoodPoisoning.symptoms = 0 := by
  have i1 : interCount [("cough"), ("runny nose"), ("sneezing")]
      App.rowFoodPoisoning.symptoms = 0 := by decide
  have u1 : unionCount [("cough"), ("runny nose"), ("sneezing")]
      App.rowFoodPoisoning.symptoms = 9 := by decide
  have f1 : App.rowFoodPoisoning.symptoms.filter
      (fun s => ([("cough"), ("runny nose"), ("sneezing")] :
        List String).contains s) = [] := by decide
  rw [App.scoreRow]
  simp only [i1, u1, f1, List.map_nil, List.sum_nil]
  norm_num

theorem demo_score_br :
    App.scoreRow App.demoFreq
      [("cough"), ("runny nose"), ("sneezing")]
      App.rowBronchitis.symptoms = 0 := by
  have i1 : interCount [("cough"), ("runny nose"), ("sneezing")]
      App.rowBronchitis.symptoms = 0 := by decide
  have u1 : unionCount [("cough"), ("runny nose"), ("sneezing")]
      App.rowBronchitis.symptoms = 8 := by decide
  have f1 : App.rowBronchitis.symptoms.filter
      (fun s => ([("cough"), ("runny nose"), ("sneezing")] :
        List String).contains s) = [] := by decide
  rw [App.scoreRow]
  simp only [i1, u1, f1, List.map_nil, List.sum_nil]
  norm_num

theorem demo_score_inf_lt_cc :
    App.scoreRow App.demoFreq [("cough"), ("runny nose"), ("sneezing")]
        App.rowInfluenza.symptoms <
      App.scoreRow App.demoFreq [("cough"), ("runny nose"), ("sneezing")]
        App.rowCC.symptoms := by
  have hl1 : 0 < (Real.log 221)⁻¹ := inv_pos.mpr (Real.log_pos (by norm_num))
  have hl2 : 0 < (Real.log 191)⁻¹ := inv_pos.mpr (Real.log_pos (by norm_num))
  have hl3 : 0 < (Real.log 161)⁻¹ := inv_pos.mpr (Real.log_pos (by norm_num))
  have i1 : interCount [("cough"), ("runny nose"), ("sneezing")]
      App.rowCC.symptoms = 3 := by decide
  have u1 : unionCount [("cough"), ("runny nose"), ("sneezing")]
      App.rowCC.symptoms = 6 := by decide
  have f1 : App.rowCC.symptoms.filter
      (fun s => ([("cough"), ("runny nose"), ("sneezing")] :
        List String).contains s) =
      [("cough"), ("runny nose"), ("sneezing")] := by decide
  have i2 : interCount [("cough"), ("runny nose"), ("sneezing")]
      App.rowInfluenza.symptoms = 1 := by decide
  have u2 : unionCount [("cough"), ("runny nose"), ("sneezing")]
      App.rowInfluenza.symptoms = 9 := by decide
  have f2 : App.rowInfluenza.symptoms.filter
      (fun s => ([("cough"), ("runny nose"), ("sneezing")] :
        List String).contains s) = [("cough")] := by decide
  have q1 : App.freqGetD App.demoFreq ("cough") 1 = 220 := by decide
  have q2 : App.freqGetD App.demoFreq ("runny nose") 1 = 190 := by decide
  have q3 : App.freqGetD App.demoFreq ("sneezing") 1 = 160 := by decide
  simp only [App.scoreRow, i1, u1, f1, i2, u2, f2, q1, q2, q3,
    List.map_cons, List.map_nil, List.sum_cons, List.sum_nil]
  norm_num
  nlinarith [hl1, hl2, hl3]

theorem demo_score_ar_lt_cc :
    App.scoreRow App.demoFreq [("cough"), ("runny nose"), ("sneezing")]
        App.rowAllergic.symptoms <
      App.scoreRow App.demoFreq [("cough"), ("runny nose"), ("sneezing")]
        App.rowCC.symptoms := by
  have hl1 : 0 < (Real.log 221)⁻¹ := inv_pos.mpr (Real.log_pos (by norm_num))
  have hl2 : 0 < (Real.log 191)⁻¹ := inv_pos.mpr (Real.log_pos (by norm_num))
  have hl3 : 0 < (Real.log 161)⁻¹ := inv_pos.mpr (Real.log_pos (by norm_num))
  have i1 : interCount [("cough"), ("runny nose"), ("sneezing")]
      App.rowCC.symptoms = 3 := by decide
  have u1 : unionCount [("cough"), ("runny nose"), ("sneezing")]
      App.rowCC.symptoms = 6 := by decide
  have f1 : App.rowCC.symptoms.filter
      (fun s => ([("cough"), ("runny nose"), ("sneezing")] :
        List String).contains s) =
      [("cough"), ("runny nose"), ("sneezing")] := by decide
  have i2 : interCount [("cough"), ("runny nose"), ("sneezing")]
      App.rowAllergic.symptoms = 2 := by decide
  have u2 : unionCount [("cough"), ("runny nose"), ("sneezing")]
      App.rowAllergic.symptoms = 6 := by decide
  have f2 : App.rowAllergic.symptoms.filter
      (fun s => ([("cough"), ("runny nose"), ("sneezing")] :
        List String).contains s) = [("sneezing"), ("runny nose")] := by
    decide
  have q1 : App.freqGetD App.demoFreq ("cough") 1 = 220 := by decide
  have q2 : App.freqGetD App.demoFreq ("runny nose") 1 = 190 := by decide
  have q3 : App.freqGetD App.demoFreq ("sneezing") 1 = 160 := by decide
  simp only [App.scoreRow, i1, u1, f1, i2, u2, f2, q1, q2, q3,
    List.map_cons, List.map_nil, List.sum_cons, List.sum_nil]
  norm_num
  nlinarith [hl1, hl2, hl3]

theorem demo_rowResult_cc :
    App.rowResult App.demoFreq [("cough"), ("runny nose"), ("sneezing")]
        App.rowCC =
      some ⟨App.rowCC.name,
        App.scoreRow App.demoFreq
          [("cough"), ("runny nose"), ("sneezing")] App.rowCC.symptoms,
        [("cough"), ("runny nose"), ("sneezing")], App.rowCC.symptoms,
        App.rowCC.treatments, 3⟩ := by
  have hne : ¬ App.rowCC.symptoms = [] := by decide
  have hil : interList [("cough"), ("runny nose"), ("sneezing")]
      App.rowCC.symptoms =
      [("cough"), ("runny nose"), ("sneezing")] := by decide
  have hic : interCount [("cough"), ("runny nose"), ("sneezing")]
      App.rowCC.symptoms = 3 := by decide
  rw [App.rowResult, if_neg hne, if_pos demo_score_cc_pos, hil, hic]

theorem demo_rowResult_inf :
    App.rowResult App.demoFreq [("cough"), ("runny nose"), ("sneezing")]
        App.rowInfluenza =
      some ⟨App.rowInfluenza.name,
        App.scoreRow App.demoFreq
          [("cough"), ("runny nose"), ("sneezing")]
          App.rowInfluenza.symptoms,
        [("cough")], App.rowInfluenza.symptoms,
        App.rowInfluenza.treatments, 1⟩ := by
  have hne : ¬ App.rowInfluenza.symptoms = [] := by decide
  have hil : interList [("cough"), ("runny nose"), ("sneezing")]
      App.rowInfluenza.symptoms = [("cough")] := by decide
  have hic : interCount [("cough"), ("runny nose"), ("sneezing")]
      App.rowInfluenza.symptoms = 1 := by decide
  rw [App.rowResult, if_neg hne, if_pos demo_score_inf_pos, hil, hic]

theorem demo_rowResult_ar :
    App.rowResult App.demoFreq [("cough"), ("runny nose"), ("sneezing")]
        App.rowAllergic =
      some ⟨App.rowAllergic.name,
        App.scoreRow App.demoFreq
          [("cough"), ("runny nose"), ("sneezing")]
          App.rowAllergic.symptoms,
        [("runny nose"), ("sneezing")], App.rowAllergic.symptoms,
        App.rowAllergic.treatments, 2⟩ := by
  have hne : ¬ App.rowAllergic.symptoms = [] := by decide
  have hil : interList [("cough"), ("runny nose"), ("sneezing")]
      App.rowAllergic.symptoms = [("runny nose"), ("sneezing")] := by
    decide
  have hic : interCount [("cough"), ("runny nose"), ("sneezing")]
      App.rowAllergic.symptoms = 2 := by decide
  rw [App.rowResult, if_neg hne, if_pos demo_score_ar_pos, hil, hic]

theorem demo_rowResult_migraine :
    App.rowResult App.demoFreq [("cough"), ("runny nose"), ("sneezing")]
      App.rowMigraine = none := by
  have hne : ¬ App.rowMigraine.symptoms = [] := by decide
  rw [App.rowResult, if_neg hne, if_neg]
  rw [demo_score_migraine]
  norm_num

theorem demo_rowResult_fp :
    App.rowResult App.demoFreq [("cough"), ("runny nose"), ("sneezing")]
      App.rowFoodPoisoning = none := by
  have hne : ¬ App.rowFoodPoisoning.symptoms = [] := by decide
  rw [App.rowResult, if_neg hne, if_neg]
  rw [demo_score_fp]
  norm_num

theorem demo_rowResult_br :
    App.rowResult App.demoFreq [("cough"), ("runny nose"), ("sneezing")]
      App.rowBronchitis = none := by
  have hne : ¬ App.rowBronchitis.symptoms = [] := by decide
  rw [App.rowResult, if_neg hne, if_neg]
  rw [demo_score_br]
  norm_num

theorem demo_diagnoseRaw_eval :
    App.diagnoseRaw App.demo [("cough"), ("runny nose"), ("sneezing")] =
      [⟨App.rowCC.name,
        App.scoreRow App.demoFreq
          [("cough"), ("runny nose"), ("sneezing")] App.rowCC.symptoms,
        [("cough"), ("runny nose"), ("sneezing")], App.rowCC.symptoms,
        App.rowCC.treatments, 3⟩,
       ⟨App.rowInfluenza.name,
        App.scoreRow App.demoFreq
          [("cough"), ("runny nose"), ("sneezing")]
          App.rowInfluenza.symptoms,
        [("cough")], App.rowInfluenza.symptoms,
        App.rowInfluenza.treatments, 1⟩,
       ⟨App.rowAllergic.name,
        App.scoreRow App.demoFreq
          [("cough"), ("runny nose"), ("sneezing")]
          App.rowAllergic.symptoms,
        [("runny nose"), ("sneezing")], App.rowAllergic.symptoms,
        App.rowAllergic.treatments, 2⟩] := by
  rw [App.diagnoseRaw]
  simp only [App.demo, App.demoData]
  simp only [List.filterMap_cons, List.filterMap_nil, demo_rowResult_cc,
    demo_rowResult_inf, demo_rowResult_migraine, demo_rowResult_fp,
    demo_rowResult_ar, demo_rowResult_br]

theorem head?_take {α : Type} (l : List α) (n : ℕ) (hn : 0 < n) :
    (l.take n).head? = l.head? := by
  cases l with
  | nil => simp
  | cons a as =>
    cases n with
    | zero => cases hn
    | succ m => rw [List.take_succ_cons]; rfl

/-- C8 (Scenario A): on the demo catalog, the query
`"cough, runny nose, sneezing"` ranks `Common Cold` first, with
`match_count = 3`. -/
theorem c8_scenario_a :
    (App.diagnose App.demo (some ("cough, runny nose, sneezing")) 5).head?.map
        (fun r => (r.disease, r.match_count)) =
      some (("Common Cold"), 3) := by
  have hclean : App.clean_input_symptoms
      (some ("cough, runny nose, sneezing")) =
      [("cough"), ("runny nose"), ("sneezing")] := by decide
  have hne : ¬ ([("cough"), ("runny nose"), ("sneezing")] :
      List String) = [] := by decide
  simp only [App.diagnose, hclean]
  rw [if_neg hne]
  rw [head?_take _ 5 (by norm_num)]
  have hhead : (sortKeyDesc App.Result.similarity
      (App.diagnoseRaw App.demo
        [("cough"), ("runny nose"), ("sneezing")])).head? =
      some ⟨App.rowCC.name,
        App.scoreRow App.demoFreq
          [("cough"), ("runny nose"), ("sneezing")] App.rowCC.symptoms,
        [("cough"), ("runny nose"), ("sneezing")], App.rowCC.symptoms,
        App.rowCC.treatments, 3⟩ := by
    apply head_sortKeyDesc_of_max
    · rw [demo_diagnoseRaw_eval]
      exact List.mem_cons_self _ _
    · intro y hy hney
      rw [demo_diagnoseRaw_eval] at hy
      rcases List.mem_cons.mp hy with rfl | hy
      · exact absurd rfl hney
      · rcases List.mem_cons.mp hy with rfl | hy
        · exact demo_score_inf_lt_cc
        · rcases List.mem_cons.mp hy with rfl | hy
          · exact demo_score_ar_lt_cc
          · exact absurd hy (List.not_mem_nil y)
  rw [hhead]
  rw [Option.map_some']
  rw [show App.rowCC.name = ("Common Cold") from rfl]

end HC
